/-
Verification of the CinemaVerse client-side dual-persistence state
synchronization engine.

Shallow embedding of:
  * `src/Frontend/src/app/services/storage.service.ts`
      - `StorageService` (dual-tier keyed store over sessionStorage + cookies)
      - `FavoriteService` (reactive favorites collection cache)
  * `src/Frontend/src/app/services/cart.service.ts`
      - `CartService` (reactive cart collection cache)
      - `AuthService` (session authority: credential lifecycle + callbacks)

Modelling conventions (documented per definition below):
  * JavaScript numbers that are used as integers in the source (quantities,
    stock limits, epoch-millisecond timestamps, prices) are modelled as `Int`.
  * The browser primitives `sessionStorage` and the `document.cookie` jar are
    modelled as association lists from key strings to value strings.  The
    `encodeURIComponent`/`decodeURIComponent` pair applied by
    `setCookie`/`getCookie` is a bijection inverted on read and is elided.
  * Browser primitives may throw (e.g. storage access denied); this is
    modelled by an explicit `PrimFail` oracle saying which primitive throws,
    and every operation returns `Except Unit _` so that "the operation throws"
    is observable as `.error`.
  * `JSON.stringify`/`JSON.parse` are modelled by an executable
    serializer/parser pair over a JSON value type `JsVal` restricted to
    null / booleans / integer numbers / strings / arrays (objects behave the
    same as arrays for the store: opaque serialized blobs).
-/
import Mathlib

namespace CV

/-! # JSON value model (`JSON.stringify` / `JSON.parse` browser primitives) -/

/-- JSON values as stored/retrieved by the dual-tier store.  Numbers are
restricted to integers (the source never relies on fractional values for the
claims under study); objects are omitted, arrays standing in for compound
documents. -/
inductive JsVal where
  | null : JsVal
  | bool : Bool → JsVal
  | num : Int → JsVal
  | str : String → JsVal
  | arr : List JsVal → JsVal

/-- JavaScript truthiness of a parsed JSON value: `null`, `false`, `0` and
`""` are falsy; arrays (objects) are always truthy. -/
def jsTruthy : JsVal → Bool
  | .null => false
  | .bool b => b
  | .num n => if n = 0 then false else true
  | .str s => if s = "" then false else true
  | .arr _ => true

/-- JSON string escaping: `"` and `\` are escaped; other characters are
emitted verbatim. -/
def escapeChar (c : Char) : String :=
  if c = '\"' then "\\\"" else if c = '\\' then "\\\\" else String.singleton c

/-- Escape the body of a JSON string literal. -/
def escapeStr (s : String) : String :=
  String.join (s.data.map escapeChar)

mutual

/-- `JSON.stringify` on our value domain. -/
def stringifyJ : JsVal → String
  | .null => "null"
  | .bool true => "true"
  | .bool false => "false"
  | .num n => toString n
  | .str s => "\"" ++ escapeStr s ++ "\""
  | .arr xs => "[" ++ stringifyList xs ++ "]"

/-- Comma-separated serialization of array elements. -/
def stringifyList : List JsVal → String
  | [] => ""
  | [x] => stringifyJ x
  | x :: y :: rest => stringifyJ x ++ "," ++ stringifyList (y :: rest)

end

/-- Skip JSON whitespace. -/
def skipWs : List Char → List Char
  | [] => []
  | c :: rest =>
    if c = ' ' ∨ c = '\n' ∨ c = '\t' ∨ c = '\r' then skipWs rest else c :: rest

/-- Longest digit prefix of a character list, together with the rest. -/
def takeDigits : List Char → List Char × List Char
  | [] => ([], [])
  | c :: rest =>
    if c.isDigit then
      let (ds, r) := takeDigits rest
      (c :: ds, r)
    else ([], c :: rest)

/-- Decimal digits to a natural number. -/
def digitsToNat (ds : List Char) : Nat :=
  ds.foldl (fun acc c => acc * 10 + (c.toNat - 48)) 0

/-- Expect a literal character sequence as a prefix. -/
def expectChars : List Char → List Char → Option (List Char)
  | [], cs => some cs
  | e :: es, c :: cs => if c = e then expectChars es cs else none
  | _ :: _, [] => none

/-- Un-escape one escaped character inside a JSON string literal. -/
def unescapeChar (c : Char) : Char :=
  if c = 'n' then '\n' else if c = 't' then '\t' else if c = 'r' then '\r' else c

/-- Parse the body of a JSON string literal after the opening quote, up to and
including the closing quote.  Fueled to make termination structural. -/
def parseStrBody : Nat → List Char → Option (String × List Char)
  | 0, _ => none
  | _ + 1, [] => none
  | fuel + 1, c :: rest =>
    if c = '\"' then some ("", rest)
    else if c = '\\' then
      match rest with
      | [] => none
      | e :: rest2 =>
        (parseStrBody fuel rest2).map
          (fun p => (String.singleton (unescapeChar e) ++ p.1, p.2))
    else
      (parseStrBody fuel rest).map (fun p => (String.singleton c ++ p.1, p.2))

mutual

/-- Recursive-descent `JSON.parse` (value position), fueled. -/
def parseVal : Nat → List Char → Option (JsVal × List Char)
  | 0, _ => none
  | fuel + 1, cs =>
    match skipWs cs with
    | [] => none
    | c :: rest =>
      if c = 'n' then (expectChars ['u', 'l', 'l'] rest).map (fun r => (.null, r))
      else if c = 't' then (expectChars ['r', 'u', 'e'] rest).map (fun r => (.bool true, r))
      else if c = 'f' then (expectChars ['a', 'l', 's', 'e'] rest).map (fun r => (.bool false, r))
      else if c = '\"' then (parseStrBody fuel rest).map (fun p => (.str p.1, p.2))
      else if c = '[' then
        match skipWs rest with
        | ']' :: r2 => some (.arr [], r2)
        | cs2 => (parseElems fuel cs2).map (fun p => (.arr p.1, p.2))
      else if c = '-' then
        match takeDigits rest with
        | ([], _) => none
        | (ds, r) => some (.num (-(digitsToNat ds : Int)), r)
      else if c.isDigit then
        match takeDigits (c :: rest) with
        | ([], _) => none
        | (ds, r) => some (.num (digitsToNat ds : Int), r)
      else none

/-- Parse one or more comma-separated array elements followed by `]`. -/
def parseElems : Nat → List Char → Option (List JsVal × List Char)
  | 0, _ => none
  | fuel + 1, cs =>
    match parseVal fuel cs with
    | none => none
    | some (v, r) =>
      match skipWs r with
      | ',' :: r2 => (parseElems fuel r2).map (fun p => (v :: p.1, p.2))
      | ']' :: r2 => some ([v], r2)
      | _ => none

end

/-- `JSON.parse`: parse a complete document; trailing garbage (after
whitespace) makes the parse fail, as `JSON.parse` would throw. -/
def parseJ (s : String) : Option JsVal :=
  match parseVal (s.length + 1) s.data with
  | some (v, rest) => if skipWs rest = [] then some v else none
  | none => none

/-! # Association-list store primitives

Both browser tiers (`sessionStorage` and the cookie jar) are keyed stores of
strings; we model each as an association list.  `assocSet` overwrites the
first entry with the given key (keeping its position) or appends;
`lookupA` returns the first entry with the given key, matching the behaviour
of `sessionStorage.getItem` and of the `getCookie` scanning loop
(storage.service.ts lines 69-90), which returns the first matching cookie. -/

/-- First-match lookup in an association list. -/
def lookupA {α : Type} : List (String × α) → String → Option α
  | [], _ => none
  | (k', v') :: rest, k => if k' = k then some v' else lookupA rest k

/-- Overwrite-or-append update of an association list. -/
def assocSet {α : Type} : List (String × α) → String → α → List (String × α)
  | [], k, v => [(k, v)]
  | (k', v') :: rest, k, v =>
    if k' = k then (k, v) :: rest else (k', v') :: assocSet rest k v

/-- Remove all entries with the given key. -/
def assocRemove {α : Type} (l : List (String × α)) (k : String) : List (String × α) :=
  l.filter (fun e => !(e.1 = k : Bool))

/-! # Raw dual-tier store (`StorageService`, storage.service.ts lines 11-123)

The short-lived tier is `sessionStorage`, the long-lived tier the browser
cookie jar.  A `PrimFail` oracle records which underlying browser primitive
throws on access (e.g. storage disabled by privacy settings); each
`StorageService` operation is compiled to an `Except Unit _` computation so
that an uncaught exception is observable as `.error ()`. -/

/-- The two browser-tier contents. -/
structure RawState where
  session : List (String × String)
  cookies : List (String × String)

/-- Which underlying browser primitives throw. -/
structure PrimFail where
  sessionSet : Bool
  sessionGet : Bool
  sessionRemove : Bool
  sessionClear : Bool
  cookieRead : Bool
  cookieWrite : Bool

/-- All primitives behave normally. -/
def noFail : PrimFail := ⟨false, false, false, false, false, false⟩

/-- All primitives throw. -/
def allFail : PrimFail := ⟨true, true, true, true, true, true⟩

/-- `sessionStorage.getItem(key)` (returns `null` for absent keys). -/
def pSessionGet (f : PrimFail) (st : RawState) (key : String) :
    Except Unit (Option String) :=
  if f.sessionGet then .error () else .ok (lookupA st.session key)

/-- `sessionStorage.setItem(key, value)`. -/
def pSessionSet (f : PrimFail) (st : RawState) (key value : String) :
    Except Unit RawState :=
  if f.sessionSet then .error ()
  else .ok { st with session := assocSet st.session key value }

/-- `sessionStorage.removeItem(key)`. -/
def pSessionRemove (f : PrimFail) (st : RawState) (key : String) :
    Except Unit RawState :=
  if f.sessionRemove then .error ()
  else .ok { st with session := assocRemove st.session key }

/-- `sessionStorage.clear()`. -/
def pSessionClear (f : PrimFail) (st : RawState) : Except Unit RawState :=
  if f.sessionClear then .error () else .ok { st with session := [] }

/-- Reading `document.cookie`. -/
def pCookieRead (f : PrimFail) (st : RawState) :
    Except Unit (List (String × String)) :=
  if f.cookieRead then .error () else .ok st.cookies

/-- Assigning to `document.cookie`.  Writing with an already-past expiry date
(`expired = true`) deletes the cookie; otherwise the cookie is stored (the
30-day future expiry horizon computed by `setCookie` is always in the future,
so it is modelled as "not expired"). -/
def pCookieWrite (f : PrimFail) (st : RawState) (name value : String)
    (expired : Bool) : Except Unit RawState :=
  if f.cookieWrite then .error ()
  else if expired then .ok { st with cookies := assocRemove st.cookies name }
  else .ok { st with cookies := assocSet st.cookies name value }

/-- `StorageService.setSessionItem` (lines 19-25):
`try { sessionStorage.setItem(key, JSON.stringify(value)) } catch { log }`. -/
def setSessionItem (f : PrimFail) (st : RawState) (key : String) (value : JsVal) :
    Except Unit RawState :=
  match pSessionSet f st key (stringifyJ value) with
  | .ok st' => .ok st'
  | .error _ => .ok st

/-- `StorageService.getSessionItem` (lines 27-35):
`const item = sessionStorage.getItem(key); return item ? JSON.parse(item) : null`
wrapped in try/catch returning `null`.  The JavaScript `null` result is
represented as `JsVal.null` (JavaScript cannot distinguish a stored JSON
`null` from the absent-key result). -/
def getSessionItem (f : PrimFail) (st : RawState) (key : String) :
    Except Unit JsVal :=
  match pSessionGet f st key with
  | .error _ => .ok .null
  | .ok none => .ok .null
  | .ok (some item) =>
    if item = "" then .ok .null
    else
      match parseJ item with
      | some j => .ok j
      | none => .ok .null

/-- `StorageService.removeSessionItem` (lines 37-43). -/
def removeSessionItem (f : PrimFail) (st : RawState) (key : String) :
    Except Unit RawState :=
  match pSessionRemove f st key with
  | .ok st' => .ok st'
  | .error _ => .ok st

/-- `StorageService.clearSession` (lines 45-51). -/
def clearSession (f : PrimFail) (st : RawState) : Except Unit RawState :=
  match pSessionClear f st with
  | .ok st' => .ok st'
  | .error _ => .ok st

/-- `StorageService.setCookie` (lines 56-67): strings are stored raw
(`typeof value === 'string' ? value : JSON.stringify(value)`), everything
else is stringified; the write is URI-encoded (elided bijection) and any
failure is caught and logged.  `cookieValueOf` is the string actually
written. -/
def cookieValueOf : JsVal → String
  | .str s => s
  | v => stringifyJ v

/-- (continuation of `setCookie`.) -/
def setCookie (f : PrimFail) (st : RawState) (name : String) (value : JsVal)
    (_days : Int) : Except Unit RawState :=
  match pCookieWrite f st name (cookieValueOf value) false with
  | .ok st' => .ok st'
  | .error _ => .ok st

/-- `StorageService.getCookie` (lines 69-90): scan for the first cookie named
`name`; `try { return JSON.parse(value) } catch { return value }` — a value
that fails to parse is returned as the raw string; the whole operation is
wrapped in try/catch returning `null`. -/
def getCookie (f : PrimFail) (st : RawState) (name : String) :
    Except Unit JsVal :=
  match pCookieRead f st with
  | .error _ => .ok .null
  | .ok jar =>
    match lookupA jar name with
    | none => .ok .null
    | some raw =>
      match parseJ raw with
      | some j => .ok j
      | none => .ok (.str raw)

/-- `StorageService.deleteCookie` (lines 92-98): overwrite with an
already-expired date, caught on failure. -/
def deleteCookie (f : PrimFail) (st : RawState) (name : String) :
    Except Unit RawState :=
  match pCookieWrite f st name "" true with
  | .ok st' => .ok st'
  | .error _ => .ok st

/-- `StorageService.hasSessionItem` (lines 105-107):
`return sessionStorage.getItem(key) !== null;` — note: NO try/catch. -/
def hasSessionItem (f : PrimFail) (st : RawState) (key : String) :
    Except Unit Bool :=
  match pSessionGet f st key with
  | .error e => .error e
  | .ok item => .ok (item ≠ none : Bool)

/-- `StorageService.hasCookie` (lines 112-114): `getCookie(name) !== null`. -/
def hasCookie (f : PrimFail) (st : RawState) (name : String) :
    Except Unit Bool :=
  match getCookie f st name with
  | .error e => .error e
  | .ok .null => .ok false
  | .ok _ => .ok true

/-- The `cookieNames.forEach(name => this.deleteCookie(name))` loop of
`clearAll`; an exception thrown by an iteration would propagate. -/
def clearAllGo (f : PrimFail) : List String → RawState → Except Unit RawState
  | [], st => .ok st
  | name :: rest, st =>
    match deleteCookie f st name with
    | .error e => .error e
    | .ok st' => clearAllGo f rest st'

/-- `StorageService.clearAll` (lines 119-122): `clearSession()` then
`deleteCookie` on each named cookie. -/
def clearAll (f : PrimFail) (st : RawState) (cookieNames : List String) :
    Except Unit RawState :=
  match clearSession f st with
  | .error e => .error e
  | .ok st1 => clearAllGo f cookieNames st1

/-! ## The dual-tier `set`/`get` pattern

The repository has no single combined `set`/`get`; the pattern is written at
every call site: writes go to both tiers (`saveCartToStorage`,
cart.service.ts lines 106-121; `handleAuthSuccess`, lines 509-536), reads try
the short-lived tier and fall back to the long-lived one with JavaScript `||`
truthiness (`AuthService.getToken`, lines 571-574; `loadCartFromStorage`,
lines 75-104).  `storeSet`/`storeGet` are that pattern verbatim. -/

/-- Dual-tier write: `setSessionItem(key, v); setCookie(key, v, days)`. -/
def storeSet (f : PrimFail) (st : RawState) (key : String) (value : JsVal)
    (days : Int) : Except Unit RawState :=
  match setSessionItem f st key value with
  | .error e => .error e
  | .ok st1 => setCookie f st1 key value days

/-- Dual-tier read: `getSessionItem(key) || getCookie(key)` — the session
result is used when truthy, otherwise whatever the cookie tier yields. -/
def storeGet (f : PrimFail) (st : RawState) (key : String) :
    Except Unit JsVal :=
  match getSessionItem f st key with
  | .error e => .error e
  | .ok sess =>
    if jsTruthy sess then .ok sess
    else getCookie f st key

/-! # Cart data model (cart.service.ts lines 9-17, 28-29) -/

/-- `CartItem` (cart.service.ts lines 9-17).  JavaScript numbers used as
integer quantities/prices are modelled as `Int`; the optional fields keep
their optionality. -/
structure CartItem where
  id : String
  productId : String
  name : String
  price : Int
  quantity : Int
  image : Option String := none
  maxStock : Option Int := none
deriving DecidableEq, Repr

/-- `Omit<CartItem, 'quantity'>`: the `product` argument of `addToCart`. -/
structure CartProduct where
  id : String
  productId : String
  name : String
  price : Int
  image : Option String := none
  maxStock : Option Int := none
deriving DecidableEq, Repr

/-- `MAX_QUANTITY_PER_ITEM` (cart.service.ts line 29). -/
def MAX_QUANTITY_PER_ITEM : Int := 99

/-- `{ ...product, quantity }` (line 167). -/
def mkCartItem (product : CartProduct) (quantity : Int) : CartItem :=
  { id := product.id, productId := product.productId, name := product.name,
    price := product.price, quantity := quantity, image := product.image,
    maxStock := product.maxStock }

/-- The JavaScript guard `maxStock && q > maxStock` used by `addToCart`
(lines 138, 157) and `updateQuantity` (line 197): when `maxStock` is absent
or `0` (falsy) the stock check is skipped entirely. -/
def stockExceeded (maxStock : Option Int) (q : Int) : Bool :=
  match maxStock with
  | none => false
  | some m => if m = 0 then false else q > m

/-- Set the quantity of the first item whose `productId` matches
(`updatedItems[index] = { ...updatedItems[index], quantity }`, which is how
both `addToCart`, `updateQuantity` and `mergeCartOnLogin` write back after a
`findIndex`). -/
def setQtyAtPid : List CartItem → String → Int → List CartItem
  | [], _, _ => []
  | it :: rest, pid, q =>
    if it.productId = pid then { it with quantity := q } :: rest
    else it :: setQtyAtPid rest pid q

/-- First cart line with the given `productId`
(`items.find(item => item.productId === productId)`). -/
def findCart (items : List CartItem) (productId : String) : Option CartItem :=
  items.find? (fun it => it.productId = productId)

/-- `CartService.addToCart` (lines 127-171), result of the in-memory update:
`none` means the add was rejected (capacity violation, early `return` before
any state change), `some items` the updated collection.  Note that on the
existing-item path the stock check uses the *argument's* `maxStock`
(`product.maxStock`), not the stored line's. -/
def addToCartRes (currentItems : List CartItem) (product : CartProduct)
    (quantity : Int) : Option (List CartItem) :=
  match findCart currentItems product.productId with
  | some existingItem =>
    let newQuantity := existingItem.quantity + quantity
    if stockExceeded product.maxStock newQuantity then none
    else if newQuantity > MAX_QUANTITY_PER_ITEM then none
    else some (setQtyAtPid currentItems product.productId newQuantity)
  | none =>
    if stockExceeded product.maxStock quantity then none
    else if quantity > MAX_QUANTITY_PER_ITEM then none
    else some (currentItems ++ [mkCartItem product quantity])

/-- `addToCart` as a total in-memory transition (a rejected add leaves the
collection unchanged). -/
def addToCart (currentItems : List CartItem) (product : CartProduct)
    (quantity : Int) : List CartItem :=
  (addToCartRes currentItems product quantity).getD currentItems

/-- `CartService.removeFromCart` (lines 173-177). -/
def removeFromCart (items : List CartItem) (productId : String) : List CartItem :=
  items.filter (fun it => !(it.productId = productId : Bool))

/-- `CartService.updateQuantity` (lines 179-210): non-positive target removes
the line; above the global cap or the stored line's (truthy) `maxStock` the
update is rejected; otherwise the first matching line's quantity is set. -/
def updateQuantity (items : List CartItem) (productId : String) (quantity : Int) :
    List CartItem :=
  if quantity ≤ 0 then removeFromCart items productId
  else if quantity > MAX_QUANTITY_PER_ITEM then items
  else
    match findCart items productId with
    | none => items
    | some item =>
      if stockExceeded item.maxStock quantity then items
      else setQtyAtPid items productId quantity

/-- `CartService.incrementQuantity` (lines 212-217). -/
def incrementQuantity (items : List CartItem) (productId : String) : List CartItem :=
  match findCart items productId with
  | some item => updateQuantity items productId (item.quantity + 1)
  | none => items

/-- `CartService.decrementQuantity` (lines 219-224). -/
def decrementQuantity (items : List CartItem) (productId : String) : List CartItem :=
  match findCart items productId with
  | some item => updateQuantity items productId (item.quantity - 1)
  | none => items

/-- One cart mutation operation, as enumerated by the spec's invariant. -/
inductive CartOp where
  | add (product : CartProduct) (quantity : Int)
  | update (productId : String) (quantity : Int)
  | inc (productId : String)
  | dec (productId : String)
  | remove (productId : String)
deriving DecidableEq, Repr

/-- Apply one mutation to the in-memory cart. -/
def applyCartOp (items : List CartItem) : CartOp → List CartItem
  | .add p q => addToCart items p q
  | .update pid q => updateQuantity items pid q
  | .inc pid => incrementQuantity items pid
  | .dec pid => decrementQuantity items pid
  | .remove pid => removeFromCart items pid

/-- Run a sequence of cart mutations starting from the empty cart. -/
def runCartOps (ops : List CartOp) : List CartItem :=
  ops.foldl applyCartOp []

/-- The quantity invariant claimed by the spec for a single cart line:
positive, at most `MAX_QUANTITY_PER_ITEM`, and at most `maxStock` when that
field is set. -/
def itemQtyOk (it : CartItem) : Bool :=
  (0 < it.quantity : Bool) && (it.quantity ≤ MAX_QUANTITY_PER_ITEM : Bool) &&
    (match it.maxStock with
     | some m => (it.quantity ≤ m : Bool)
     | none => true)

/-- The spec's cart invariant over a whole collection. -/
def cartQtyInv (items : List CartItem) : Prop :=
  ∀ it ∈ items, itemQtyOk it = true

/-- Constraint on an `add` operation used by the amended invariant claim:
the requested quantity is positive and the product carries the catalog's
`maxStock` for its `productId`. -/
def addOpOk (stock : String → Option Int) : CartOp → Bool
  | .add p q => (1 ≤ q : Bool) && (p.maxStock = stock p.productId : Bool)
  | _ => true

/-- The strengthened inductive invariant: every line satisfies the quantity
bounds and carries the catalog's `maxStock` for its product. -/
def cartInvStock (stock : String → Option Int) (items : List CartItem) : Prop :=
  ∀ it ∈ items, itemQtyOk it = true ∧ it.maxStock = stock it.productId

/-- `localItem.maxStock || MAX_QUANTITY_PER_ITEM` (line 292): JavaScript `||`
falls through on `0` (falsy) but keeps any other number. -/
def jsOrMax (maxStock : Option Int) : Int :=
  match maxStock with
  | none => MAX_QUANTITY_PER_ITEM
  | some m => if m = 0 then MAX_QUANTITY_PER_ITEM else m

/-- The merge re-clamp
`Math.min(combinedQuantity, localItem.maxStock || 99, 99)` (lines 290-294). -/
def mergeClamp (combinedQuantity : Int) (localMaxStock : Option Int) : Int :=
  min (min combinedQuantity (jsOrMax localMaxStock)) MAX_QUANTITY_PER_ITEM

/-- One step of the `mergeCartOnLogin` loop (lines 284-300): a local item
whose `productId` already occurs in the merged list combines quantities and
re-clamps via `mergeClamp`; otherwise the local item is pushed at the end. -/
def cartMergeStep (mergedCart : List CartItem) (localItem : CartItem) :
    List CartItem :=
  match findCart mergedCart localItem.productId with
  | some existing =>
    setQtyAtPid mergedCart localItem.productId
      (mergeClamp (existing.quantity + localItem.quantity) localItem.maxStock)
  | none => mergedCart ++ [localItem]

/-- `CartService.mergeCartOnLogin` (lines 280-305), in-memory result: start
from the server's list verbatim and fold the local items through
`cartMergeStep`. -/
def mergeCartOnLogin (serverCart localCart : List CartItem) : List CartItem :=
  localCart.foldl cartMergeStep serverCart

/-! # Favorites data model (storage.service.ts lines 132-139) -/

/-- `FavoriteItem` (storage.service.ts lines 132-139); `addedAt : Date` is
modelled as its epoch-millisecond value (`new Date(x).getTime()` is the
identity on that representation). -/
structure FavoriteItem where
  id : String
  productId : String
  name : String
  price : Int
  image : Option String := none
  addedAt : Int
deriving DecidableEq, Repr

/-- `Omit<FavoriteItem, 'addedAt'>`: the argument of `addToFavorites`. -/
structure FavoriteProduct where
  id : String
  productId : String
  name : String
  price : Int
  image : Option String := none
deriving DecidableEq, Repr

/-- `{ ...product, addedAt: new Date() }` (lines 257-260); `now` is the
current epoch-millisecond time. -/
def mkFavorite (product : FavoriteProduct) (now : Int) : FavoriteItem :=
  { id := product.id, productId := product.productId, name := product.name,
    price := product.price, image := product.image, addedAt := now }

/-- First favorite with the given `productId`. -/
def findFav (items : List FavoriteItem) (productId : String) : Option FavoriteItem :=
  items.find? (fun it => it.productId = productId)

/-- `FavoriteService.addToFavorites` (lines 252-264): a duplicate
`productId` is a no-op, otherwise the timestamped item is appended. -/
def addToFavorites (currentItems : List FavoriteItem) (product : FavoriteProduct)
    (now : Int) : List FavoriteItem :=
  if currentItems.any (fun it => it.productId = product.productId) then currentItems
  else currentItems ++ [mkFavorite product now]

/-- `FavoriteService.removeFromFavorites` (lines 266-270). -/
def removeFromFavorites (items : List FavoriteItem) (productId : String) :
    List FavoriteItem :=
  items.filter (fun it => !(it.productId = productId : Bool))

/-- `Map.set(item.productId, item)` on a JavaScript `Map` whose iteration
order is insertion order: replace the value at an existing key in place, or
append a new binding. -/
def mapSetFav : List FavoriteItem → FavoriteItem → List FavoriteItem
  | [], item => [item]
  | ex :: rest, item =>
    if ex.productId = item.productId then item :: rest
    else ex :: mapSetFav rest item

/-- One step of the local-favorites loop of `mergeFavoritesOnLogin`
(lines 380-391): keep whichever copy has the strictly earlier `addedAt`
(the server copy wins ties), inserting items with fresh `productId`s. -/
def favMergeStep (mergedMap : List FavoriteItem) (localItem : FavoriteItem) :
    List FavoriteItem :=
  match findFav mergedMap localItem.productId with
  | some existing =>
    if localItem.addedAt < existing.addedAt then mapSetFav mergedMap localItem
    else mergedMap
  | none => mapSetFav mergedMap localItem

/-- `FavoriteService.mergeFavoritesOnLogin` (lines 370-397), in-memory
result: seed a `Map` keyed by `productId` from the server list, fold the
local list through `favMergeStep`, and read the values back in insertion
order. -/
def mergeFavoritesOnLogin (serverFavorites localFavorites : List FavoriteItem) :
    List FavoriteItem :=
  localFavorites.foldl favMergeStep (serverFavorites.foldl mapSetFav [])

/-- `FavoriteService.parseFavorites` (lines 224-229): re-hydrate the
`addedAt` dates; on the epoch-millisecond representation this is the
identity (`new Date(item.addedAt)` for a date/number `addedAt`). -/
def parseFavorites (favorites : List FavoriteItem) : List FavoriteItem :=
  favorites.map (fun item => { item with addedAt := item.addedAt })

/-! # Application-level state (CartService + FavoriteService + AuthService)

For the service-level claims the two storage tiers are viewed at the typed
level: the key namespaces are disjoint by construction
(`cart_user_<id>`, `fav_user_<id>`, and the three fixed `auth_*` keys), and
for the record types the services store, `JSON.parse ∘ JSON.stringify` is the
identity, so each tier is modelled as a record with one typed keyed map per
namespace.  A stored cart/favorites entry is a parsed JSON array and hence
always truthy, so the `if (!cartJson)` fallbacks collapse to presence
checks. -/

/-- `User` (cart.service.ts lines 336-341). -/
structure User where
  id : String
  name : String
  email : String
  avatar : Option String := none
deriving DecidableEq, Repr

/-- `AuthResponse` (cart.service.ts lines 343-347); `expiresIn` is in
seconds. -/
structure AuthResponse where
  user : User
  token : String
  expiresIn : Option Int := none
deriving DecidableEq, Repr

/-- One storage tier at the typed level.  The `auth_user` entry holds the
user record (stored as `JSON.stringify(res.user)` in sessionStorage and as
the serialized object in the cookie jar — both deserialize back to the
record). -/
structure Tier where
  carts : List (String × List CartItem)
  favs : List (String × List FavoriteItem)
  auth_user : Option User
  auth_token : Option String
  auth_token_expiry : Option String
deriving DecidableEq, Repr

/-- An empty tier. -/
def emptyTier : Tier :=
  { carts := [], favs := [], auth_user := none, auth_token := none,
    auth_token_expiry := none }

/-- Combined in-memory + persisted client state.  `cartUser`/`favUser` are
`CartService.currentUserId` and `FavoriteService.currentUserId`; `authUser`
is the id of `AuthService.currentUser`. -/
structure AppState where
  cartUser : Option String
  cartItems : List CartItem
  favUser : Option String
  favItems : List FavoriteItem
  authUser : Option String
  session : Tier
  cookies : Tier
deriving DecidableEq, Repr

/-- A fresh client state: nothing in memory, nothing persisted. -/
def emptyApp : AppState :=
  { cartUser := none, cartItems := [], favUser := none, favItems := [],
    authUser := none, session := emptyTier, cookies := emptyTier }

/-- `CartService.getStorageKey` for a logged-in user (lines 71-73):
`CART_STORAGE_PREFIX + userId`. -/
def cartKey (userId : String) : String := "cart_user_" ++ userId

/-- `FavoriteService.getStorageKey` for a logged-in user
(storage.service.ts lines 189-191). -/
def favKey (userId : String) : String := "fav_user_" ++ userId

/-- `CartService.saveCartToStorage` (lines 106-121): no-op without an active
user; otherwise write the in-memory cart to both tiers under the user's
namespaced key. -/
def saveCartToStorage (st : AppState) : AppState :=
  match st.cartUser with
  | none => st
  | some u =>
    { st with
      session := { st.session with carts := assocSet st.session.carts (cartKey u) st.cartItems },
      cookies := { st.cookies with carts := assocSet st.cookies.carts (cartKey u) st.cartItems } }

/-- `CartService.loadCartFromStorage` (lines 75-104): sessionStorage first,
cookie fallback, else empty. -/
def loadCartFromStorage (st : AppState) : AppState :=
  match st.cartUser with
  | none => { st with cartItems := [] }
  | some u =>
    match lookupA st.session.carts (cartKey u) with
    | some cartJson => { st with cartItems := cartJson }
    | none =>
      match lookupA st.cookies.carts (cartKey u) with
      | some cookieCart => { st with cartItems := cookieCart }
      | none => { st with cartItems := [] }

/-- `CartService.loadCartForUser` (lines 58-61). -/
def loadCartForUser (st : AppState) (userId : String) : AppState :=
  loadCartFromStorage { st with cartUser := some userId }

/-- `CartService.clearCartOnLogout` (lines 66-69): hide the in-memory items
and forget the user id; persisted tiers untouched. -/
def clearCartOnLogout (st : AppState) : AppState :=
  { st with cartItems := [], cartUser := none }

/-- `CartService.addToCart` at the service level (lines 127-171): a rejected
add returns before any state change; an accepted add updates the in-memory
collection and writes it through both tiers. -/
def addToCartApp (st : AppState) (product : CartProduct) (quantity : Int) :
    AppState :=
  match addToCartRes st.cartItems product quantity with
  | none => st
  | some updated => saveCartToStorage { st with cartItems := updated }

/-- `FavoriteService.saveFavoritesToStorage` (storage.service.ts
lines 231-246). -/
def saveFavoritesToStorage (st : AppState) : AppState :=
  match st.favUser with
  | none => st
  | some u =>
    { st with
      session := { st.session with favs := assocSet st.session.favs (favKey u) st.favItems },
      cookies := { st.cookies with favs := assocSet st.cookies.favs (favKey u) st.favItems } }

/-- `FavoriteService.loadFavoritesFromStorage` (lines 193-222); the stored
lists pass through `parseFavorites` on both paths. -/
def loadFavoritesFromStorage (st : AppState) : AppState :=
  match st.favUser with
  | none => { st with favItems := [] }
  | some u =>
    match lookupA st.session.favs (favKey u) with
    | some favoritesJson => { st with favItems := parseFavorites favoritesJson }
    | none =>
      match lookupA st.cookies.favs (favKey u) with
      | some cookieFavorites => { st with favItems := parseFavorites cookieFavorites }
      | none => { st with favItems := [] }

/-- `FavoriteService.loadFavoritesForUser` (lines 176-179). -/
def loadFavoritesForUser (st : AppState) (userId : String) : AppState :=
  loadFavoritesFromStorage { st with favUser := some userId }

/-- `FavoriteService.clearFavoritesOnLogout` (lines 184-187). -/
def clearFavoritesOnLogout (st : AppState) : AppState :=
  { st with favItems := [], favUser := none }

/-- `AuthService.notifyLogin`'s effect on the two registered collection
caches (cart.service.ts lines 49-51 and storage.service.ts lines 167-169
register `loadCartForUser`/`loadFavoritesForUser`): each cache loads the
user's persisted collection.  The two callbacks touch disjoint state, so
their registration order is immaterial. -/
def notifyLoginApp (st : AppState) (userId : String) : AppState :=
  loadFavoritesForUser (loadCartForUser st userId) userId

/-- `AuthService.notifyLogout`'s effect on the registered caches. -/
def notifyLogoutApp (st : AppState) : AppState :=
  clearFavoritesOnLogout (clearCartOnLogout st)

/-- `DEFAULT_TOKEN_EXPIRY` in seconds (cart.service.ts line 356). -/
def DEFAULT_TOKEN_EXPIRY : Int := 30 * 24 * 60 * 60

/-- `res.expiresIn || DEFAULT_TOKEN_EXPIRY` (line 515): `0` is falsy. -/
def jsOrExpiry (expiresIn : Option Int) : Int :=
  match expiresIn with
  | none => DEFAULT_TOKEN_EXPIRY
  | some n => if n = 0 then DEFAULT_TOKEN_EXPIRY else n

/-- `AuthService.handleAuthSuccess` (lines 509-536): record the identity,
write the credential record (user, token, expiry-as-string) to both tiers,
then notify the collection caches.  `now` is `new Date().getTime()`. -/
def handleAuthSuccess (st : AppState) (res : AuthResponse) (now : Int) : AppState :=
  let expiryDate := now + jsOrExpiry res.expiresIn * 1000
  let st1 :=
    { st with
      authUser := some res.user.id,
      session := { st.session with auth_user := some res.user,
                                   auth_token := some res.token,
                                   auth_token_expiry := some (toString expiryDate) },
      cookies := { st.cookies with auth_user := some res.user,
                                   auth_token := some res.token,
                                   auth_token_expiry := some (toString expiryDate) } }
  notifyLoginApp st1 res.user.id

/-- `AuthService.logout` (lines 633-651): drop the identity, notify the
caches (which clear their in-memory collections only), then remove the three
credential keys from sessionStorage and delete the three credential
cookies.  Collection keys in both tiers are untouched. -/
def logout (st : AppState) : AppState :=
  let st1 := notifyLogoutApp { st with authUser := none }
  { st1 with
    session := { st1.session with auth_user := none, auth_token := none,
                                  auth_token_expiry := none },
    cookies := { st1.cookies with auth_user := none, auth_token := none,
                                  auth_token_expiry := none } }

/-- JavaScript `a || b` over the two tier reads of a credential string
(lines 577-578, 586-587): a `null` or `""` (falsy) session value falls
through to the cookie value. -/
def jsOrStr (a b : Option String) : Option String :=
  match a with
  | none => b
  | some s => if s = "" then b else some s

/-- `parseInt(s, 10)`: skip leading whitespace, optional sign, then the
longest digit prefix; no digits means `NaN`, modelled as `none`. -/
def parseIntJS (s : String) : Option Int :=
  match skipWs s.data with
  | '-' :: rest =>
    (match takeDigits rest with
     | ([], _) => none
     | (ds, _) => some (-(digitsToNat ds : Int)))
  | '+' :: rest =>
    (match takeDigits rest with
     | ([], _) => none
     | (ds, _) => some ((digitsToNat ds : Int)))
  | cs =>
    (match takeDigits cs with
     | ([], _) => none
     | (ds, _) => some ((digitsToNat ds : Int)))

/-- The combined two-tier read of `auth_token_expiry`, with the falsy
`if (!expiry)` guard folded in: `none` is the "absent credential" branch. -/
def readTokenExpiry (st : AppState) : Option String :=
  match jsOrStr st.session.auth_token_expiry st.cookies.auth_token_expiry with
  | none => none
  | some e => if e = "" then none else some e

/-- `AuthService.isTokenExpired` (lines 585-591): absent expiry is treated
as already expired; a malformed stored value parses to `NaN` and
`Date.now() >= NaN` is `false`. -/
def isTokenExpired (st : AppState) (now : Int) : Bool :=
  match readTokenExpiry st with
  | none => true
  | some e =>
    match parseIntJS e with
    | none => false
    | some expiryTime => now ≥ expiryTime

/-- `AuthService.isTokenExpiringSoon` (lines 576-583): absent expiry is
treated as *not* expiring soon; `NaN < x` is `false`. -/
def isTokenExpiringSoon (st : AppState) (now : Int) : Bool :=
  match readTokenExpiry st with
  | none => false
  | some e =>
    match parseIntJS e with
    | none => false
    | some expiryTime => expiryTime < now + 24 * 60 * 60 * 1000

/-! # Remote sync (cart.service.ts lines 248-265, storage.service.ts
lines 338-355)

The HTTP round trip is an external collaborator; its outcome is passed in as
an `Except Unit _` argument.  The rxjs pipeline `pipe(tap(...),
catchError(...))` is compiled to a match: on success the `tap` side effects
run and the response is forwarded; on failure `catchError` logs and resolves
with a synthetic response carrying the untouched prior in-memory
collection.  The result type `Except Unit (resp × state)` makes "the
observable errors" representable as `.error`, so totality is a theorem, not
a typing artifact. -/

/-- `CartSyncResponse` (cart.service.ts lines 19-22). -/
structure CartSyncResponse where
  success : Bool
  cart : List CartItem
deriving DecidableEq, Repr

/-- `FavoriteSyncResponse` (storage.service.ts lines 141-144). -/
structure FavoriteSyncResponse where
  success : Bool
  favorites : List FavoriteItem
deriving DecidableEq, Repr

/-- `CartService.syncCartWithBackend` (lines 248-265).  A parsed JSON array
is always truthy, so `response.success && response.cart` reduces to
`response.success`. -/
def syncCartWithBackend (st : AppState) (resp : Except Unit CartSyncResponse) :
    Except Unit (CartSyncResponse × AppState) :=
  match resp with
  | .ok response =>
    if response.success then
      .ok (response, saveCartToStorage { st with cartItems := response.cart })
    else .ok (response, st)
  | .error _ => .ok ({ success := false, cart := st.cartItems }, st)

/-- `FavoriteService.syncFavoritesWithBackend` (storage.service.ts
lines 338-355). -/
def syncFavoritesWithBackend (st : AppState)
    (resp : Except Unit FavoriteSyncResponse) :
    Except Unit (FavoriteSyncResponse × AppState) :=
  match resp with
  | .ok response =>
    if response.success then
      .ok (response,
        saveFavoritesToStorage { st with favItems := parseFavorites response.favorites })
    else .ok (response, st)
  | .error _ => .ok ({ success := false, favorites := st.favItems }, st)

/-- `Except` success test. -/
def isOkE {ε α : Type} : Except ε α → Bool
  | .ok _ => true
  | .error _ => false

/-! # Login-callback notification (cart.service.ts lines 538-548)

`AuthService.notifyLogin` iterates the registered callbacks with a
per-callback try/catch.  A registered callback is opaque here: it receives
the user id and the (abstract) dependent-service state and either returns an
updated state or throws. -/

/-- A registered login callback (may throw). -/
structure LoginCallback (σ : Type) where
  run : String → σ → Except Unit σ

/-- `AuthService.notifyLogin` (lines 538-548): call every callback in
registration order with the user id; a throwing callback is caught and
logged (state unchanged by the failed callback) and iteration continues.
The second component is the invocation trace: one entry per registered
callback, in order, recording the id it was invoked with and its outcome. -/
def notifyLogin {σ : Type} (cbs : List (LoginCallback σ)) (userId : String)
    (st : σ) : σ × List (String × Except Unit Unit) :=
  match cbs with
  | [] => (st, [])
  | cb :: rest =>
    match cb.run userId st with
    | .ok st' =>
      let r := notifyLogin rest userId st'
      (r.1, (userId, .ok ()) :: r.2)
    | .error e =>
      let r := notifyLogin rest userId st
      (r.1, (userId, .error e) :: r.2)

/-! # Concrete data used by witnesses and counterexamples -/

/-- Server cart line of the spec's merge example: `p1`, quantity 2,
`maxStock` 5. -/
def wServerLine : CartItem :=
  { id := "srv1", productId := "p1", name := "Movie P1", price := 10,
    quantity := 2, maxStock := some 5 }

/-- Local cart line of the spec's merge example: `p1`, quantity 4 (same
catalog product, so the same `maxStock` 5). -/
def wLocalLine : CartItem :=
  { id := "loc1", productId := "p1", name := "Movie P1", price := 10,
    quantity := 4, maxStock := some 5 }

/-- A catalog product without a stock limit. -/
def wProduct : CartProduct :=
  { id := "it1", productId := "p1", name := "Movie P1", price := 10 }

/-- Server favorite of the spec's merge example: `p1`, added at 100. -/
def wServerFav : FavoriteItem :=
  { id := "sf", productId := "p1", name := "Movie P1", price := 10, addedAt := 100 }

/-- Local favorite `p1`, added at 50 (conflicts with the server copy). -/
def wLocalFav1 : FavoriteItem :=
  { id := "lf1", productId := "p1", name := "Movie P1", price := 10, addedAt := 50 }

/-- Local favorite `p2`, added at 200 (only local). -/
def wLocalFav2 : FavoriteItem :=
  { id := "lf2", productId := "p2", name := "Movie P2", price := 20, addedAt := 200 }

/-- A favorites-product argument. -/
def wFavProduct : FavoriteProduct :=
  { id := "fp", productId := "p9", name := "Movie P9", price := 30 }

/-- A registered login callback that succeeds (bumps an abstract counter
state). -/
def okCb : LoginCallback Nat := ⟨fun _ n => .ok (n + 1)⟩

/-- A registered login callback that throws. -/
def badCb : LoginCallback Nat := ⟨fun _ _ => .error ()⟩

/-- A client state authenticated as user `"A"` with nothing yet persisted. -/
def wAuthedApp : AppState :=
  { emptyApp with cartUser := some "A", favUser := some "A", authUser := some "A" }

/-- A successful cart-sync response carrying one line. -/
def wCartResp : CartSyncResponse := { success := true, cart := [wServerLine] }

/-- A successful favorites-sync response. -/
def wFavResp : FavoriteSyncResponse := { success := true, favorites := [wServerFav] }

/-! # Association-list lemmas -/

@[simp]
theorem lookupA_assocSet_self {α : Type} (l : List (String × α)) (k : String) (v : α) :
    lookupA (assocSet l k v) k = some v := by
  induction l with
  | nil => simp [assocSet, lookupA]
  | cons e rest ih =>
    by_cases h : e.1 = k
    · simp [assocSet, lookupA, h]
    · simp [assocSet, lookupA, h, ih]

theorem lookupA_assocSet_ne {α : Type} (l : List (String × α)) (k k' : String) (v : α)
    (h : k' ≠ k) : lookupA (assocSet l k v) k' = lookupA l k' := by
  induction l with
  | nil => simp [assocSet, lookupA, Ne.symm h]
  | cons e rest ih =>
    by_cases he : e.1 = k
    · subst he
      simp [assocSet, lookupA, Ne.symm h]
    · simp only [assocSet, he, if_false, lookupA]
      by_cases he' : e.1 = k'
      · simp [he']
      · simp [he', ih]

/-! # Claim C10 — absent token expiry: expired but not expiring-soon -/

/-- C10: when no `auth_token_expiry` value is stored in either tier,
`isTokenExpired()` returns `true` while `isTokenExpiringSoon()` returns
`false`: absence of a credential is already-expired for the expiry check but
not-expiring for the proactive-refresh check. -/
theorem tokenExpiry_absent_expired_not_soon (st : AppState) (now : Int)
    (hs : st.session.auth_token_expiry = none)
    (hc : st.cookies.auth_token_expiry = none) :
    isTokenExpired st now = true ∧ isTokenExpiringSoon st now = false := by
  constructor <;>
    simp [isTokenExpired, isTokenExpiringSoon, readTokenExpiry, jsOrStr, hs, hc]

/-- Witness for C10 at the fresh client state. -/
theorem tokenExpiry_absent_expired_not_soon_witness :
    isTokenExpired emptyApp 0 = true ∧ isTokenExpiringSoon emptyApp 0 = false :=
  tokenExpiry_absent_expired_not_soon emptyApp 0 rfl rfl

/-! # Claim C4 — totality of the dual-tier store operations -/

/-- `deleteCookie` never propagates a primitive exception. -/
theorem deleteCookie_isOk (f : PrimFail) (st : RawState) (name : String) :
    ∃ st', deleteCookie f st name = .ok st' := by
  unfold deleteCookie pCookieWrite
  by_cases h : f.cookieWrite <;> simp [h]

/-- The `forEach deleteCookie` loop never propagates. -/
theorem clearAllGo_isOk (f : PrimFail) (names : List String) :
    ∀ st : RawState, isOkE (clearAllGo f names st) = true := by
  induction names with
  | nil => intro st; rfl
  | cons name rest ih =>
    intro st
    obtain ⟨st', h⟩ := deleteCookie_isOk f st name
    simp [clearAllGo, h, ih]

/-- C4 (amended): every `StorageService` operation **except**
`hasSessionItem` is total — whatever underlying browser primitives throw, it
returns normally (failures degrade to "no value" / "write skipped" and are
logged).  `hasSessionItem` is the exception, see the counterexample. -/
theorem storage_ops_total (f : PrimFail) (st : RawState) (key name : String)
    (value : JsVal) (days : Int) (names : List String) :
    isOkE (setSessionItem f st key value) = true ∧
    isOkE (getSessionItem f st key) = true ∧
    isOkE (removeSessionItem f st key) = true ∧
    isOkE (clearSession f st) = true ∧
    isOkE (setCookie f st name value days) = true ∧
    isOkE (getCookie f st name) = true ∧
    isOkE (deleteCookie f st name) = true ∧
    isOkE (hasCookie f st name) = true ∧
    isOkE (clearAll f st names) = true := by
  refine ⟨?_, ?_, ?_, ?_, ?_, ?_, ?_, ?_, ?_⟩
  · unfold setSessionItem
    cases pSessionSet f st key (stringifyJ value) <;> rfl
  · unfold getSessionItem
    cases pSessionGet f st key with
    | error e => rfl
    | ok o =>
      cases o with
      | none => rfl
      | some item =>
        dsimp only
        split
        · rfl
        · split <;> rfl
  · unfold removeSessionItem
    cases pSessionRemove f st key <;> rfl
  · unfold clearSession
    cases pSessionClear f st <;> rfl
  · unfold setCookie
    cases pCookieWrite f st name (cookieValueOf value) false <;> rfl
  · unfold getCookie
    cases pCookieRead f st with
    | error e => rfl
    | ok jar =>
      dsimp only
      cases lookupA jar name with
      | none => rfl
      | some raw =>
        dsimp only
        cases parseJ raw <;> rfl
  · obtain ⟨st', h⟩ := deleteCookie_isOk f st name
    simp [h, isOkE]
  · unfold hasCookie
    have : isOkE (getCookie f st name) = true := by
      unfold getCookie
      cases pCookieRead f st with
      | error e => rfl
      | ok jar =>
        dsimp only
        cases lookupA jar name with
        | none => rfl
        | some raw =>
          dsimp only
          cases parseJ raw <;> rfl
    cases hg : getCookie f st name with
    | error e => rw [hg] at this; exact absurd this (by simp [isOkE])
    | ok j => cases j <;> rfl
  · unfold clearAll clearSession
    cases h : pSessionClear f st with
    | error e =>
      simp only []
      exact clearAllGo_isOk f names st
    | ok st1 =>
      simp only []
      exact clearAllGo_isOk f names st1

/-- Counterexample to C4 as stated: `hasSessionItem` (storage.service.ts
lines 105-107) has no try/catch, so when the `sessionStorage.getItem`
primitive throws, the exception propagates to the caller. -/
theorem hasSessionItem_propagates :
    hasSessionItem allFail { session := [], cookies := [] } "k" = .error () := rfl

/-! # Claim C8 — adding a duplicate favorite is a no-op -/

/-- C8: adding a `productId` that is already in the favorites collection is
a no-op, whatever the second add's field values or timestamp; after adding
the same `productId` twice the collection holds exactly one entry for it and
that entry keeps the first add's `addedAt`. -/
theorem addToFavorites_duplicate_noop (st : List FavoriteItem)
    (p q : FavoriteProduct) (t1 t2 : Int)
    (hq : q.productId = p.productId)
    (hnew : ∀ it ∈ st, it.productId ≠ p.productId) :
    addToFavorites (addToFavorites st p t1) q t2 = addToFavorites st p t1 ∧
    (addToFavorites st p t1).countP (fun it => it.productId = p.productId) = 1 ∧
    findFav (addToFavorites st p t1) p.productId = some (mkFavorite p t1) := by
  have hany : st.any (fun it => (it.productId = p.productId : Bool)) = false := by
    rw [← Bool.not_eq_true, List.any_eq_true]
    push_neg
    intro it hit
    simpa using hnew it hit
  have h1 : addToFavorites st p t1 = st ++ [mkFavorite p t1] := by
    simp [addToFavorites, hany]
  refine ⟨?_, ?_, ?_⟩
  · have hmem : (st ++ [mkFavorite p t1]).any
        (fun it => (it.productId = q.productId : Bool)) = true := by
      rw [List.any_eq_true]
      exact ⟨mkFavorite p t1, by simp, by simp [mkFavorite, hq]⟩
    rw [h1]
    simp [addToFavorites, hmem]
  · have hz : st.countP (fun it => (it.productId = p.productId : Bool)) = 0 := by
      rw [List.countP_eq_zero]
      intro it hit
      simpa using hnew it hit
    rw [h1, List.countP_append, hz]
    simp [List.countP_cons, mkFavorite]
  · rw [h1]
    unfold findFav
    rw [List.find?_append]
    have hn : st.find? (fun it => (it.productId = p.productId : Bool)) = none := by
      rw [List.find?_eq_none]
      intro it hit
      simpa using hnew it hit
    simp [hn, mkFavorite]

/-- Witness for C8: add `p9` twice (different timestamps) on an empty
collection. -/
theorem addToFavorites_duplicate_noop_witness :
    addToFavorites (addToFavorites [] wFavProduct 11) wFavProduct 22 =
      addToFavorites [] wFavProduct 11 ∧
    (addToFavorites [] wFavProduct 11).countP
      (fun it => it.productId = wFavProduct.productId) = 1 ∧
    findFav (addToFavorites [] wFavProduct 11) wFavProduct.productId =
      some (mkFavorite wFavProduct 11) :=
  addToFavorites_duplicate_noop [] wFavProduct wFavProduct 11 22 rfl
    (by intro it hit; cases hit)

/-! # Claim C9 — login callbacks: all invoked, in order, isolated -/

/-- Splitting the callback run at an append boundary: the suffix always
runs, on the state produced by the prefix, and the traces concatenate. -/
theorem notifyLogin_append {σ : Type} (l1 l2 : List (LoginCallback σ))
    (userId : String) (st : σ) :
    notifyLogin (l1 ++ l2) userId st =
      ((notifyLogin l2 userId (notifyLogin l1 userId st).1).1,
       (notifyLogin l1 userId st).2 ++ (notifyLogin l2 userId (notifyLogin l1 userId st).1).2) := by
  induction l1 generalizing st with
  | nil => simp [notifyLogin]
  | cons cb rest ih =>
    simp only [List.cons_append, notifyLogin]
    cases cb.run userId st with
    | ok st' => simp [ih st']
    | error e => simp [ih st]

/-- C9: `notifyLogin` invokes every registered callback with the user id in
registration order (the trace has one entry per callback, each carrying the
id), and a callback that throws is caught — the remaining callbacks still
run, on the state as it was before the failing callback. -/
theorem notifyLogin_callbacks_isolated {σ : Type}
    (cbs pre rest : List (LoginCallback σ)) (cb : LoginCallback σ)
    (userId : String) (st : σ) :
    (notifyLogin cbs userId st).2.map Prod.fst = cbs.map (fun _ => userId) ∧
    (cb.run userId (notifyLogin pre userId st).1 = .error () →
      notifyLogin (pre ++ cb :: rest) userId st =
        ((notifyLogin rest userId (notifyLogin pre userId st).1).1,
         (notifyLogin pre userId st).2 ++
           (userId, Except.error ()) :: (notifyLogin rest userId (notifyLogin pre userId st).1).2)) := by
  constructor
  · induction cbs generalizing st with
    | nil => simp [notifyLogin]
    | cons c cs ih =>
      simp only [notifyLogin]
      cases c.run userId st with
      | ok st' => simp [ih st']
      | error e => simp [ih st]
  · intro hfail
    rw [notifyLogin_append]
    have hstep : notifyLogin (cb :: rest) userId (notifyLogin pre userId st).1 =
        ((notifyLogin rest userId (notifyLogin pre userId st).1).1,
         (userId, Except.error ()) :: (notifyLogin rest userId (notifyLogin pre userId st).1).2) := by
      simp only [notifyLogin, hfail]
    rw [hstep]

/-- Witness for C9: three callbacks, the middle one throwing; all three are
invoked with the id, and the third still runs. -/
theorem notifyLogin_callbacks_isolated_witness :
    (notifyLogin [okCb, badCb, okCb] "u7" 0).2.map Prod.fst = ["u7", "u7", "u7"] ∧
    notifyLogin ([okCb] ++ badCb :: [okCb]) "u7" 0 =
      ((notifyLogin [okCb] "u7" ((notifyLogin [okCb] "u7" (0 : Nat)).1)).1,
       (notifyLogin [okCb] "u7" (0 : Nat)).2 ++
         ("u7", Except.error ()) :: (notifyLogin [okCb] "u7" ((notifyLogin [okCb] "u7" (0 : Nat)).1)).2) :=
  ⟨(notifyLogin_callbacks_isolated [okCb, badCb, okCb] [okCb] [okCb] badCb "u7" 0).1,
   (notifyLogin_callbacks_isolated [okCb, badCb, okCb] [okCb] [okCb] badCb "u7" 0).2 rfl⟩

/-! # Claim C7 — remote sync never throws; failure preserves state -/

/-- Re-hydrating favorites is the identity on the epoch-millisecond
representation. -/
theorem parseFavorites_self (l : List FavoriteItem) : parseFavorites l = l := by
  unfold parseFavorites
  induction l with
  | nil => rfl
  | cons it rest ih => simp [ih]

/-- C7: for both the cart and the favorites cache, a failed backend sync
resolves (never throws) with the in-memory collection exactly as it was
before the call, and a successful sync replaces the in-memory collection
with the server's copy and persists it under the active user's key. -/
theorem syncWithBackend_total_and_framed (st : AppState) (e : Unit)
    (r : CartSyncResponse) (rf : FavoriteSyncResponse)
    (respC : Except Unit CartSyncResponse)
    (respF : Except Unit FavoriteSyncResponse) :
    isOkE (syncCartWithBackend st respC) = true ∧
    isOkE (syncFavoritesWithBackend st respF) = true ∧
    syncCartWithBackend st (.error e) =
      .ok ({ success := false, cart := st.cartItems }, st) ∧
    syncFavoritesWithBackend st (.error e) =
      .ok ({ success := false, favorites := st.favItems }, st) ∧
    (r.success = true → ∀ st' : AppState,
      syncCartWithBackend st (.ok r) = .ok (r, st') →
      st'.cartItems = r.cart ∧
      ∀ u, st.cartUser = some u →
        lookupA st'.session.carts (cartKey u) = some r.cart ∧
        lookupA st'.cookies.carts (cartKey u) = some r.cart) ∧
    (rf.success = true → ∀ st' : AppState,
      syncFavoritesWithBackend st (.ok rf) = .ok (rf, st') →
      st'.favItems = rf.favorites ∧
      ∀ u, st.favUser = some u →
        lookupA st'.session.favs (favKey u) = some rf.favorites ∧
        lookupA st'.cookies.favs (favKey u) = some rf.favorites) := by
  refine ⟨?_, ?_, rfl, rfl, ?_, ?_⟩
  · cases respC with
    | error e => rfl
    | ok resp =>
      unfold syncCartWithBackend
      by_cases h : resp.success <;> simp [h, isOkE]
  · cases respF with
    | error e => rfl
    | ok resp =>
      unfold syncFavoritesWithBackend
      by_cases h : resp.success <;> simp [h, isOkE]
  · intro hs st' heq
    have hred : syncCartWithBackend st (.ok r) =
        .ok (r, saveCartToStorage { st with cartItems := r.cart }) := by
      unfold syncCartWithBackend
      dsimp only
      rw [if_pos hs]
    rw [hred] at heq
    have h2 : saveCartToStorage { st with cartItems := r.cart } = st' := by
      injection heq with h1
      exact congrArg Prod.snd h1
    subst h2
    constructor
    · cases h : st.cartUser <;> simp [saveCartToStorage, h]
    · intro u hu
      simp [saveCartToStorage, hu]
  · intro hs st' heq
    have hred : syncFavoritesWithBackend st (.ok rf) =
        .ok (rf, saveFavoritesToStorage { st with favItems := parseFavorites rf.favorites }) := by
      unfold syncFavoritesWithBackend
      dsimp only
      rw [if_pos hs]
    rw [hred] at heq
    have h2 : saveFavoritesToStorage { st with favItems := parseFavorites rf.favorites } = st' := by
      injection heq with h1
      exact congrArg Prod.snd h1
    subst h2
    rw [parseFavorites_self]
    constructor
    · cases h : st.favUser <;> simp [saveFavoritesToStorage, h, parseFavorites_self]
    · intro u hu
      simp [saveFavoritesToStorage, hu, parseFavorites_self]

/-- Witness for C7: a concrete successful cart sync while authenticated as
`"A"` lands the server cart in memory and in both tiers, and a concrete
failure leaves the state untouched. -/
theorem syncWithBackend_total_and_framed_witness :
    syncCartWithBackend wAuthedApp (.error ()) =
      .ok ({ success := false, cart := wAuthedApp.cartItems }, wAuthedApp) ∧
    (saveCartToStorage { wAuthedApp with cartItems := wCartResp.cart }).cartItems =
      wCartResp.cart ∧
    lookupA (saveCartToStorage { wAuthedApp with cartItems := wCartResp.cart }).session.carts
      (cartKey "A") = some wCartResp.cart := by
  have h := syncWithBackend_total_and_framed wAuthedApp () wCartResp wFavResp
    (.ok wCartResp) (.ok wFavResp)
  have h5 := h.2.2.2.2.1 rfl
    (saveCartToStorage { wAuthedApp with cartItems := wCartResp.cart }) rfl
  exact ⟨h.2.2.1, h5.1, (h5.2 "A" rfl).1⟩

/-! # Claim C2 — cart quantity invariant under mutation sequences -/

/-- Elements of `setQtyAtPid l pid q` are either untouched elements of `l`
or an element of `l` with `productId = pid` and its quantity set to `q`. -/
theorem mem_setQtyAtPid {l : List CartItem} {pid : String} {q : Int} {it' : CartItem}
    (h : it' ∈ setQtyAtPid l pid q) :
    it' ∈ l ∨ ∃ it ∈ l, it.productId = pid ∧ it' = { it with quantity := q } := by
  induction l with
  | nil => cases h
  | cons it rest ih =>
    by_cases hp : it.productId = pid
    · rw [setQtyAtPid, if_pos hp] at h
      rcases List.mem_cons.mp h with h1 | h1
      · exact Or.inr ⟨it, List.mem_cons_self it rest, hp, h1⟩
      · exact Or.inl (List.mem_cons_of_mem it h1)
    · rw [setQtyAtPid, if_neg hp] at h
      rcases List.mem_cons.mp h with h1 | h1
      · exact Or.inl (h1 ▸ List.mem_cons_self it rest)
      · rcases ih h1 with h2 | ⟨it0, hm, hpid, he⟩
        · exact Or.inl (List.mem_cons_of_mem it h2)
        · exact Or.inr ⟨it0, List.mem_cons_of_mem it hm, hpid, he⟩

/-- A found cart line matches the searched `productId`. -/
theorem findCart_pid {items : List CartItem} {pid : String} {it : CartItem}
    (h : findCart items pid = some it) : it.productId = pid := by
  have := List.find?_some h
  simpa using this

/-- A found cart line is a member. -/
theorem findCart_mem {items : List CartItem} {pid : String} {it : CartItem}
    (h : findCart items pid = some it) : it ∈ items :=
  List.mem_of_find?_eq_some h

/-- Quantity-update projections (definitional). -/
@[simp]
theorem qset_quantity (it : CartItem) (q : Int) :
    ({ it with quantity := q } : CartItem).quantity = q := rfl

/-- Quantity updates leave `maxStock` unchanged (definitional). -/
@[simp]
theorem qset_maxStock (it : CartItem) (q : Int) :
    ({ it with quantity := q } : CartItem).maxStock = it.maxStock := rfl

/-- Quantity updates leave `productId` unchanged (definitional). -/
@[simp]
theorem qset_productId (it : CartItem) (q : Int) :
    ({ it with quantity := q } : CartItem).productId = it.productId := rfl

/-- Unfolding `itemQtyOk` at a quantity update. -/
theorem itemQtyOk_qset (it : CartItem) (q : Int) :
    itemQtyOk { it with quantity := q } =
      ((0 < q : Bool) && (q ≤ MAX_QUANTITY_PER_ITEM : Bool) &&
        (match it.maxStock with
         | some m => (q ≤ m : Bool)
         | none => true)) := rfl

/-- The stock guard, decoded: when it is not triggered and the limit is a
truthy `some m` (`m ≠ 0`), the requested quantity is within the limit. -/
theorem of_stockExceeded_false {ms : Option Int} {q m : Int}
    (hms : ms = some m) (hm0 : m ≠ 0)
    (hse : ¬ stockExceeded ms q = true) : q ≤ m := by
  subst hms
  unfold stockExceeded at hse
  dsimp only at hse
  rw [if_neg hm0] at hse
  simp only [decide_eq_true_eq] at hse
  omega

/-- `updateQuantity` preserves the strengthened invariant (no hypotheses on
its arguments — the guards of the source enforce everything). -/
theorem updateQuantity_preserves {stock : String → Option Int}
    {items : List CartItem} (pid : String) (q : Int)
    (hstock : ∀ p, stock p ≠ some 0)
    (hinv : cartInvStock stock items) :
    cartInvStock stock (updateQuantity items pid q) := by
  unfold updateQuantity
  by_cases h0 : q ≤ 0
  · rw [if_pos h0]
    unfold removeFromCart
    intro it' hmem
    exact hinv it' (List.mem_filter.mp hmem).1
  · rw [if_neg h0]
    by_cases h99 : q > MAX_QUANTITY_PER_ITEM
    · rw [if_pos h99]; exact hinv
    · rw [if_neg h99]
      cases hf : findCart items pid with
      | none => exact hinv
      | some item =>
        dsimp only
        by_cases hse : stockExceeded item.maxStock q = true
        · rw [if_pos hse]; exact hinv
        · rw [if_neg hse]
          intro it' hmem
          rcases mem_setQtyAtPid hmem with hold | ⟨it0, hm, hpid, he⟩
          · exact hinv it' hold
          · subst he
            have hit0 := hinv it0 hm
            have hitem := hinv item (findCart_mem hf)
            have hpid_item : item.productId = pid := findCart_pid hf
            have hmax : it0.maxStock = item.maxStock := by
              rw [hit0.2, hitem.2, hpid, hpid_item]
            refine ⟨?_, by simp [hit0.2]⟩
            rw [itemQtyOk_qset]
            simp only [Bool.and_eq_true, decide_eq_true_eq]
            refine ⟨⟨by omega, by omega⟩, ?_⟩
            cases hms : it0.maxStock with
            | none => rfl
            | some m =>
              simp only [decide_eq_true_eq]
              have hims : item.maxStock = some m := by rw [← hmax, hms]
              have hm0 : m ≠ 0 := by
                intro hc
                subst hc
                exact hstock pid (by rw [← hpid_item, ← hitem.2, hims])
              exact of_stockExceeded_false hims hm0 hse

/-- Each cart mutation preserves the strengthened invariant, provided
`add` operations supply positive quantities and catalog-consistent
`maxStock` values. -/
theorem applyCartOp_preserves {stock : String → Option Int}
    {items : List CartItem} {op : CartOp}
    (hstock : ∀ p, stock p ≠ some 0)
    (hop : addOpOk stock op = true)
    (hinv : cartInvStock stock items) :
    cartInvStock stock (applyCartOp items op) := by
  cases op with
  | update pid q => exact updateQuantity_preserves pid q hstock hinv
  | inc pid =>
    show cartInvStock stock (incrementQuantity items pid)
    unfold incrementQuantity
    cases hf : findCart items pid with
    | none => exact hinv
    | some item =>
      dsimp only
      exact updateQuantity_preserves pid (item.quantity + 1) hstock hinv
  | dec pid =>
    show cartInvStock stock (decrementQuantity items pid)
    unfold decrementQuantity
    cases hf : findCart items pid with
    | none => exact hinv
    | some item =>
      dsimp only
      exact updateQuantity_preserves pid (item.quantity - 1) hstock hinv
  | remove pid =>
    show cartInvStock stock (removeFromCart items pid)
    unfold removeFromCart
    intro it' hmem
    exact hinv it' (List.mem_filter.mp hmem).1
  | add p q =>
    unfold addOpOk at hop
    simp only [Bool.and_eq_true, decide_eq_true_eq] at hop
    obtain ⟨hq1, hpmax⟩ := hop
    show cartInvStock stock (addToCart items p q)
    unfold addToCart addToCartRes
    cases hf : findCart items p.productId with
    | some ex =>
      dsimp only
      by_cases hse : stockExceeded p.maxStock (ex.quantity + q) = true
      · rw [if_pos hse]; exact hinv
      · rw [if_neg hse]
        by_cases h99 : ex.quantity + q > MAX_QUANTITY_PER_ITEM
        · rw [if_pos h99]; exact hinv
        · rw [if_neg h99]
          simp only [Option.getD_some]
          intro it' hmem
          rcases mem_setQtyAtPid hmem with hold | ⟨it0, hm, hpid, he⟩
          · exact hinv it' hold
          · subst he
            have hit0 := hinv it0 hm
            have hex := hinv ex (findCart_mem hf)
            have hexq : 0 < ex.quantity := by
              have hq := hex.1
              unfold itemQtyOk at hq
              simp only [Bool.and_eq_true, decide_eq_true_eq] at hq
              exact hq.1.1
            have hmax : it0.maxStock = p.maxStock := by
              rw [hit0.2, hpid, ← hpmax]
            refine ⟨?_, by simp [hit0.2]⟩
            rw [itemQtyOk_qset]
            simp only [Bool.and_eq_true, decide_eq_true_eq]
            refine ⟨⟨by omega, by omega⟩, ?_⟩
            cases hms : it0.maxStock with
            | none => rfl
            | some m =>
              simp only [decide_eq_true_eq]
              have hpms : p.maxStock = some m := by rw [← hmax, hms]
              have hm0 : m ≠ 0 := by
                intro hc
                subst hc
                exact hstock p.productId (by rw [← hpmax, hpms])
              exact of_stockExceeded_false hpms hm0 hse
    | none =>
      dsimp only
      by_cases hse : stockExceeded p.maxStock q = true
      · rw [if_pos hse]; exact hinv
      · rw [if_neg hse]
        by_cases h99 : q > MAX_QUANTITY_PER_ITEM
        · rw [if_pos h99]; exact hinv
        · rw [if_neg h99]
          simp only [Option.getD_some]
          intro it' hmem
          rcases List.mem_append.mp hmem with hold | hnew
          · exact hinv it' hold
          · have he : it' = mkCartItem p q := List.mem_singleton.mp hnew
            subst he
            refine ⟨?_, by simpa [mkCartItem] using hpmax⟩
            unfold itemQtyOk mkCartItem
            simp only [Bool.and_eq_true, decide_eq_true_eq]
            refine ⟨⟨by omega, by omega⟩, ?_⟩
            cases hms : p.maxStock with
            | none => rfl
            | some m =>
              simp only [decide_eq_true_eq]
              have hm0 : m ≠ 0 := by
                intro hc
                subst hc
                exact hstock p.productId (hpmax.symm.trans hms)
              exact of_stockExceeded_false hms hm0 hse

/-- Folding any operation sequence preserves the strengthened invariant. -/
theorem foldl_cartOps_preserves {stock : String → Option Int}
    (hstock : ∀ p, stock p ≠ some 0) :
    ∀ (ops : List CartOp) (items : List CartItem),
      (∀ op ∈ ops, addOpOk stock op = true) →
      cartInvStock stock items →
      cartInvStock stock (ops.foldl applyCartOp items) := by
  intro ops
  induction ops with
  | nil => intro items _ hinv; exact hinv
  | cons op rest ih =>
    intro items hops hinv
    rw [List.foldl_cons]
    exact ih _ (fun o ho => hops o (List.mem_cons_of_mem op ho))
      (applyCartOp_preserves hstock (hops op (List.mem_cons_self op rest)) hinv)

/-- C2 (amended): starting from the empty cart, any sequence of
`addToCart` / `updateQuantity` / `incrementQuantity` / `decrementQuantity` /
`removeFromCart` operations — where every `addToCart` supplies a positive
quantity and products drawn from a fixed catalog whose `maxStock` per
`productId` is never `0` — leaves every line's quantity positive, at most
`MAX_QUANTITY_PER_ITEM` (99), and at most the line's `maxStock` when set. -/
theorem cart_quantity_invariant (stock : String → Option Int) (ops : List CartOp)
    (hstock : ∀ p, stock p ≠ some 0)
    (hops : ∀ op ∈ ops, addOpOk stock op = true) :
    cartQtyInv (runCartOps ops) := by
  intro it hmem
  exact (foldl_cartOps_preserves hstock ops [] hops (fun it h => absurd h (List.not_mem_nil it)) it hmem).1

/-- Witness for C2: a concrete sequence (add `p1` twice, increment, then
decrement) whose final single line has quantity 2. -/
theorem cart_quantity_invariant_witness :
    runCartOps [.add wProduct 1, .inc "p1", .dec "p1", .add wProduct 1] =
      [mkCartItem wProduct 2] ∧
    cartQtyInv (runCartOps [.add wProduct 1, .inc "p1", .dec "p1", .add wProduct 1]) :=
  ⟨by decide,
   cart_quantity_invariant (fun _ => none)
     [.add wProduct 1, .inc "p1", .dec "p1", .add wProduct 1]
     (fun _ h => Option.noConfusion h)
     (by decide)⟩

/-- Counterexample to C2 as stated: `addToCart` accepts a quantity of `0`
(the guards only reject quantities *above* the caps), so the one-operation
sequence `addToCart(p1, 0)` leaves a line whose quantity is not positive. -/
theorem cart_quantity_invariant_cex :
    runCartOps [.add wProduct 0] = [mkCartItem wProduct 0] ∧
    ¬ cartQtyInv (runCartOps [.add wProduct 0]) := by
  constructor
  · decide
  · unfold cartQtyInv
    decide

/-! # Claim C1 — cart merge on login -/

/-- Unfolding `findCart` one line at a time. -/
theorem findCart_cons (it : CartItem) (l : List CartItem) (pid : String) :
    findCart (it :: l) pid =
      if it.productId = pid then some it else findCart l pid := by
  unfold findCart
  rw [List.find?_cons]
  by_cases h : it.productId = pid <;> simp [h]

/-- `findCart` on a singleton. -/
theorem findCart_single (li : CartItem) (pid : String) :
    findCart [li] pid = if li.productId = pid then some li else none := by
  rw [findCart_cons]
  rfl

/-- `findCart` distributes over append. -/
theorem findCart_append (l1 l2 : List CartItem) (pid : String) :
    findCart (l1 ++ l2) pid = (findCart l1 pid).or (findCart l2 pid) := by
  unfold findCart
  exact List.find?_append

/-- `findCart` misses exactly when no line carries the id. -/
theorem findCart_eq_none (l : List CartItem) (pid : String) :
    findCart l pid = none ↔ ∀ it ∈ l, it.productId ≠ pid := by
  unfold findCart
  rw [List.find?_eq_none]
  simp

/-- Setting a quantity rewrites the found line, keeping its other fields. -/
theorem findCart_setQtyAtPid_self (l : List CartItem) (pid : String) (q : Int) :
    findCart (setQtyAtPid l pid q) pid =
      (findCart l pid).map (fun it => { it with quantity := q }) := by
  induction l with
  | nil => rfl
  | cons it rest ih =>
    by_cases h : it.productId = pid
    · simp [setQtyAtPid, h, findCart_cons]
    · simp [setQtyAtPid, h, findCart_cons, ih]

/-- Setting a quantity at one id leaves lookups of other ids unchanged. -/
theorem findCart_setQtyAtPid_ne (l : List CartItem) (pid pid' : String) (q : Int)
    (h : pid' ≠ pid) :
    findCart (setQtyAtPid l pid q) pid' = findCart l pid' := by
  induction l with
  | nil => rfl
  | cons it rest ih =>
    by_cases hh : it.productId = pid
    · rw [setQtyAtPid, if_pos hh, findCart_cons, findCart_cons]
      have : ¬ it.productId = pid' := fun hc => h (hc ▸ hh ▸ rfl)
      simp [this]
    · rw [setQtyAtPid, if_neg hh, findCart_cons, findCart_cons, ih]

/-- Setting a quantity does not change the id sequence. -/
theorem setQtyAtPid_map_pid (l : List CartItem) (pid : String) (q : Int) :
    (setQtyAtPid l pid q).map (fun it => it.productId) =
      l.map (fun it => it.productId) := by
  induction l with
  | nil => rfl
  | cons it rest ih =>
    by_cases h : it.productId = pid
    · simp [setQtyAtPid, h]
    · simp [setQtyAtPid, h, ih]

/-- A merge step, looked up at the local item's own id. -/
theorem cartMergeStep_find_self (m : List CartItem) (li : CartItem) :
    findCart (cartMergeStep m li) li.productId =
      some (match findCart m li.productId with
            | some ex =>
              { ex with quantity := mergeClamp (ex.quantity + li.quantity) li.maxStock }
            | none => li) := by
  unfold cartMergeStep
  cases hf : findCart m li.productId with
  | some ex =>
    dsimp only
    rw [findCart_setQtyAtPid_self, hf]
    rfl
  | none =>
    dsimp only
    rw [findCart_append, hf, findCart_single, if_pos rfl]
    rfl

/-- A merge step leaves lookups of other ids unchanged. -/
theorem cartMergeStep_find_ne (m : List CartItem) (li : CartItem) (pid : String)
    (h : pid ≠ li.productId) :
    findCart (cartMergeStep m li) pid = findCart m pid := by
  unfold cartMergeStep
  cases hf : findCart m li.productId with
  | some ex =>
    dsimp only
    exact findCart_setQtyAtPid_ne m li.productId pid _ h
  | none =>
    dsimp only
    rw [findCart_append, findCart_single, if_neg (Ne.symm h)]
    cases findCart m pid <;> rfl

/-- Lookup characterization of the merged cart (auxiliary induction). -/
theorem mergeCart_find_aux :
    ∀ (localCart serverCart : List CartItem) (pid : String),
      (localCart.map (fun it => it.productId)).Nodup →
      findCart (mergeCartOnLogin serverCart localCart) pid =
        match findCart serverCart pid, findCart localCart pid with
        | some s, some l =>
          some { s with quantity := mergeClamp (s.quantity + l.quantity) l.maxStock }
        | some s, none => some s
        | none, some l => some l
        | none, none => none := by
  intro localCart
  induction localCart with
  | nil =>
    intro server pid _
    have h0 : mergeCartOnLogin server [] = server := rfl
    rw [h0]
    cases hs : findCart server pid <;> rfl
  | cons l0 rest ih =>
    intro server pid hl
    rw [List.map_cons, List.nodup_cons] at hl
    obtain ⟨hnotin, hnd⟩ := hl
    have hstep : mergeCartOnLogin server (l0 :: rest) =
        mergeCartOnLogin (cartMergeStep server l0) rest := rfl
    rw [hstep, ih (cartMergeStep server l0) pid hnd, findCart_cons]
    by_cases hp : l0.productId = pid
    · subst hp
      have hrest : findCart rest l0.productId = none :=
        (findCart_eq_none rest l0.productId).mpr
          (fun it hit hc => hnotin (hc ▸ List.mem_map_of_mem _ hit))
      rw [if_pos rfl, hrest, cartMergeStep_find_self]
      cases hs : findCart server l0.productId <;> rfl
    · rw [if_neg hp, cartMergeStep_find_ne server l0 pid (fun hc => hp (hc ▸ rfl))]

/-- Id-sequence characterization of the merged cart (auxiliary induction):
the server's lines stay in place, and exactly the local lines whose id is
not on the server are appended, in order. -/
theorem mergeCart_pids_aux :
    ∀ (localCart serverCart : List CartItem),
      (localCart.map (fun it => it.productId)).Nodup →
      (mergeCartOnLogin serverCart localCart).map (fun it => it.productId) =
        serverCart.map (fun it => it.productId) ++
          (localCart.filter (fun li => (findCart serverCart li.productId).isNone)).map
            (fun it => it.productId) := by
  intro localCart
  induction localCart with
  | nil => intro server _; simp [mergeCartOnLogin]
  | cons l0 rest ih =>
    intro server hl
    rw [List.map_cons, List.nodup_cons] at hl
    obtain ⟨hnotin, hnd⟩ := hl
    have hstep : mergeCartOnLogin server (l0 :: rest) =
        mergeCartOnLogin (cartMergeStep server l0) rest := rfl
    rw [hstep, ih (cartMergeStep server l0) hnd]
    cases hs : findCart server l0.productId with
    | some ex =>
      have hstep2 : cartMergeStep server l0 =
          setQtyAtPid server l0.productId
            (mergeClamp (ex.quantity + l0.quantity) l0.maxStock) := by
        simp only [cartMergeStep, hs]
      have hfc : rest.filter
            (fun li => (findCart (cartMergeStep server l0) li.productId).isNone) =
          rest.filter (fun li => (findCart server li.productId).isNone) := by
        apply List.filter_congr
        intro li _
        by_cases hpe : li.productId = l0.productId
        · rw [hstep2, hpe, findCart_setQtyAtPid_self, hs]
          rfl
        · rw [hstep2, findCart_setQtyAtPid_ne server l0.productId li.productId _ hpe]
      rw [hfc, hstep2, setQtyAtPid_map_pid, List.filter_cons]
      simp [hs]
    | none =>
      have hstep2 : cartMergeStep server l0 = server ++ [l0] := by
        simp only [cartMergeStep, hs]
      have hfc : rest.filter
            (fun li => (findCart (cartMergeStep server l0) li.productId).isNone) =
          rest.filter (fun li => (findCart server li.productId).isNone) := by
        apply List.filter_congr
        intro li hli
        have hne : li.productId ≠ l0.productId :=
          fun hc => hnotin (hc ▸ List.mem_map_of_mem _ hli)
        rw [hstep2, findCart_append, findCart_single, if_neg (Ne.symm hne)]
        cases findCart server li.productId <;> rfl
      rw [hfc, hstep2, List.map_append, List.filter_cons]
      simp [hs, List.append_assoc]

/-- C1: `mergeCartOnLogin` starts from the server list verbatim; a
`productId` present on both sides ends with the quantity
`min(serverQty + localQty, localItem.maxStock || 99, 99)` on the server's
line (other fields kept), a `productId` present only locally is appended as
a new line with its fields intact, and server-only lines are untouched.  On
the spec's concrete instance (server `p1` qty 2 / maxStock 5, local `p1`
qty 4) the merged quantity is 5, not 6 — see the witness. -/
theorem mergeCartOnLogin_spec (serverCart localCart : List CartItem)
    (hl : (localCart.map (fun it => it.productId)).Nodup) :
    (∀ pid, findCart (mergeCartOnLogin serverCart localCart) pid =
      match findCart serverCart pid, findCart localCart pid with
      | some s, some l =>
        some { s with quantity := mergeClamp (s.quantity + l.quantity) l.maxStock }
      | some s, none => some s
      | none, some l => some l
      | none, none => none) ∧
    (mergeCartOnLogin serverCart localCart).map (fun it => it.productId) =
      serverCart.map (fun it => it.productId) ++
        (localCart.filter (fun li => (findCart serverCart li.productId).isNone)).map
          (fun it => it.productId) :=
  ⟨fun pid => mergeCart_find_aux localCart serverCart pid hl,
   mergeCart_pids_aux localCart serverCart hl⟩

/-- Witness for C1 at the spec's concrete merge example: server
`{p1: qty 2, maxStock 5}`, local `{p1: qty 4, maxStock 5}` merge to `p1`
with quantity 5 (the sum 6 clamped), not 6. -/
theorem mergeCartOnLogin_spec_witness :
    findCart (mergeCartOnLogin [wServerLine] [wLocalLine]) "p1" =
      some { wServerLine with quantity := 5 } ∧
    (mergeCartOnLogin [wServerLine] [wLocalLine]).map (fun it => it.productId) =
      ["p1"] := by
  have h := mergeCartOnLogin_spec [wServerLine] [wLocalLine] (by decide)
  exact ⟨(h.1 "p1").trans (by decide), h.2.trans (by decide)⟩

/-! # Claim C5 — favorites merge on login: earliest-wins union -/

/-- Unfolding `findFav` one entry at a time. -/
theorem findFav_cons (it : FavoriteItem) (l : List FavoriteItem) (pid : String) :
    findFav (it :: l) pid =
      if it.productId = pid then some it else findFav l pid := by
  unfold findFav
  rw [List.find?_cons]
  by_cases h : it.productId = pid <;> simp [h]

/-- `findFav` misses exactly when no entry carries the id. -/
theorem findFav_eq_none (l : List FavoriteItem) (pid : String) :
    findFav l pid = none ↔ ∀ it ∈ l, it.productId ≠ pid := by
  unfold findFav
  rw [List.find?_eq_none]
  simp

/-- `findFav` misses exactly when the id is not among the entry ids. -/
theorem findFav_none_iff_not_mem (l : List FavoriteItem) (pid : String) :
    findFav l pid = none ↔ pid ∉ l.map (fun it => it.productId) := by
  rw [findFav_eq_none]
  simp [List.mem_map]

/-- `Map.set` looked up at the inserted key returns the new value. -/
theorem findFav_mapSetFav_self (m : List FavoriteItem) (it : FavoriteItem) :
    findFav (mapSetFav m it) it.productId = some it := by
  induction m with
  | nil => simp [mapSetFav, findFav_cons]
  | cons ex rest ih =>
    by_cases h : ex.productId = it.productId
    · simp [mapSetFav, h, findFav_cons]
    · simp [mapSetFav, h, findFav_cons, ih]

/-- `Map.set` leaves lookups of other keys unchanged. -/
theorem findFav_mapSetFav_ne (m : List FavoriteItem) (it : FavoriteItem)
    (pid : String) (h : pid ≠ it.productId) :
    findFav (mapSetFav m it) pid = findFav m pid := by
  induction m with
  | nil => simp [mapSetFav, findFav_cons, Ne.symm h, findFav]
  | cons ex rest ih =>
    by_cases hh : ex.productId = it.productId
    · rw [mapSetFav, if_pos hh, findFav_cons, findFav_cons]
      have h1 : ¬ it.productId = pid := Ne.symm h
      have h2 : ¬ ex.productId = pid := fun hc => h1 (hh ▸ hc)
      simp [h1, h2]
    · rw [mapSetFav, if_neg hh, findFav_cons, findFav_cons, ih]

/-- The key sequence after `Map.set`: unchanged when the key was present,
extended by the new key otherwise. -/
theorem mapSetFav_map_pid (m : List FavoriteItem) (it : FavoriteItem) :
    (mapSetFav m it).map (fun x => x.productId) =
      if (findFav m it.productId).isSome then m.map (fun x => x.productId)
      else m.map (fun x => x.productId) ++ [it.productId] := by
  induction m with
  | nil => simp [mapSetFav, findFav]
  | cons ex rest ih =>
    by_cases h : ex.productId = it.productId
    · simp [mapSetFav, h, findFav_cons, ih]
    · rw [mapSetFav, if_neg h, List.map_cons, ih, findFav_cons, if_neg h,
        List.map_cons]
      by_cases hs : (findFav rest it.productId).isSome <;> simp [hs]

/-- Inserting a fresh key is an append. -/
theorem mapSetFav_absent (m : List FavoriteItem) (it : FavoriteItem)
    (h : ∀ a ∈ m, a.productId ≠ it.productId) :
    mapSetFav m it = m ++ [it] := by
  induction m with
  | nil => rfl
  | cons ex rest ih =>
    rw [mapSetFav, if_neg (h ex (List.mem_cons_self ex rest)),
      ih (fun a ha => h a (List.mem_cons_of_mem ex ha)), List.cons_append]

/-- Seeding the map from a duplicate-free server list reproduces the list. -/
theorem foldl_mapSetFav_seed :
    ∀ (l acc : List FavoriteItem),
      (l.map (fun it => it.productId)).Nodup →
      (∀ li ∈ l, ∀ a ∈ acc, a.productId ≠ li.productId) →
      l.foldl mapSetFav acc = acc ++ l := by
  intro l
  induction l with
  | nil => intro acc _ _; simp
  | cons li rest ih =>
    intro acc hnd hdisj
    rw [List.map_cons, List.nodup_cons] at hnd
    obtain ⟨hnotin, hnd⟩ := hnd
    rw [List.foldl_cons,
      mapSetFav_absent acc li (fun a ha => hdisj li (List.mem_cons_self li rest) a ha),
      ih (acc ++ [li]) hnd, List.append_assoc, List.singleton_append]
    intro x hx a ha
    rcases List.mem_append.mp ha with ha1 | ha2
    · exact hdisj x (List.mem_cons_of_mem li hx) a ha1
    · rw [List.mem_singleton.mp ha2]
      intro hc
      exact hnotin (hc ▸ List.mem_map_of_mem _ hx)

/-- A favorites merge step, looked up at the local item's own id:
earliest-wins, the server copy kept on ties. -/
theorem favMergeStep_find_self (m : List FavoriteItem) (li : FavoriteItem) :
    findFav (favMergeStep m li) li.productId =
      some (match findFav m li.productId with
            | some ex => if li.addedAt < ex.addedAt then li else ex
            | none => li) := by
  unfold favMergeStep
  cases hf : findFav m li.productId with
  | some ex =>
    dsimp only
    by_cases hlt : li.addedAt < ex.addedAt
    · rw [if_pos hlt, findFav_mapSetFav_self, if_pos hlt]
    · rw [if_neg hlt, hf, if_neg hlt]
  | none =>
    dsimp only
    rw [findFav_mapSetFav_self]

/-- A favorites merge step leaves lookups of other ids unchanged. -/
theorem favMergeStep_find_ne (m : List FavoriteItem) (li : FavoriteItem)
    (pid : String) (h : pid ≠ li.productId) :
    findFav (favMergeStep m li) pid = findFav m pid := by
  unfold favMergeStep
  cases hf : findFav m li.productId with
  | some ex =>
    dsimp only
    by_cases hlt : li.addedAt < ex.addedAt
    · rw [if_pos hlt, findFav_mapSetFav_ne m li pid h]
    · rw [if_neg hlt]
  | none =>
    dsimp only
    rw [findFav_mapSetFav_ne m li pid h]

/-- A favorites merge step keeps the key sequence duplicate-free. -/
theorem favMergeStep_nodup (m : List FavoriteItem) (li : FavoriteItem)
    (h : (m.map (fun it => it.productId)).Nodup) :
    ((favMergeStep m li).map (fun it => it.productId)).Nodup := by
  unfold favMergeStep
  cases hf : findFav m li.productId with
  | some ex =>
    dsimp only
    by_cases hlt : li.addedAt < ex.addedAt
    · rw [if_pos hlt, mapSetFav_map_pid, hf]
      simpa using h
    · rw [if_neg hlt]; exact h
  | none =>
    dsimp only
    rw [mapSetFav_map_pid, hf]
    simp only [Option.isSome_none, Bool.false_eq_true, if_false]
    rw [List.nodup_append]
    exact ⟨h, List.nodup_singleton _,
      by simpa using (findFav_none_iff_not_mem m li.productId).mp hf⟩

/-- The merged keys stay duplicate-free through the local fold. -/
theorem favMerge_nodup_aux :
    ∀ (localFavorites m : List FavoriteItem),
      (m.map (fun it => it.productId)).Nodup →
      ((localFavorites.foldl favMergeStep m).map (fun it => it.productId)).Nodup := by
  intro l
  induction l with
  | nil => intro m h; exact h
  | cons li rest ih =>
    intro m h
    rw [List.foldl_cons]
    exact ih (favMergeStep m li) (favMergeStep_nodup m li h)

/-- Lookup characterization of the local fold (auxiliary induction). -/
theorem favMerge_find_aux :
    ∀ (localFavorites m : List FavoriteItem) (pid : String),
      (localFavorites.map (fun it => it.productId)).Nodup →
      findFav (localFavorites.foldl favMergeStep m) pid =
        match findFav m pid, findFav localFavorites pid with
        | some s, some l => some (if l.addedAt < s.addedAt then l else s)
        | some s, none => some s
        | none, some l => some l
        | none, none => none := by
  intro l
  induction l with
  | nil =>
    intro m pid _
    rw [List.foldl_nil]
    cases hs : findFav m pid <;> rfl
  | cons l0 rest ih =>
    intro m pid hl
    rw [List.map_cons, List.nodup_cons] at hl
    obtain ⟨hnotin, hnd⟩ := hl
    rw [List.foldl_cons, ih (favMergeStep m l0) pid hnd, findFav_cons]
    by_cases hp : l0.productId = pid
    · subst hp
      have hrest : findFav rest l0.productId = none :=
        (findFav_eq_none rest l0.productId).mpr
          (fun it hit hc => hnotin (hc ▸ List.mem_map_of_mem _ hit))
      rw [if_pos rfl, hrest, favMergeStep_find_self]
      cases hs : findFav m l0.productId <;> rfl
    · rw [if_neg hp, favMergeStep_find_ne m l0 pid (fun hc => hp (hc ▸ rfl))]

/-- C5: `mergeFavoritesOnLogin` is a deterministic earliest-wins union —
for duplicate-free inputs, the merged collection holds exactly one entry per
`productId` occurring on either side; for an id on both sides, the copy with
the strictly earlier `addedAt` is kept (the server copy on ties); ids on one
side only keep that side's copy. -/
theorem mergeFavoritesOnLogin_spec (serverFavorites localFavorites : List FavoriteItem)
    (hs : (serverFavorites.map (fun it => it.productId)).Nodup)
    (hl : (localFavorites.map (fun it => it.productId)).Nodup) :
    (∀ pid, findFav (mergeFavoritesOnLogin serverFavorites localFavorites) pid =
      match findFav serverFavorites pid, findFav localFavorites pid with
      | some s, some l => some (if l.addedAt < s.addedAt then l else s)
      | some s, none => some s
      | none, some l => some l
      | none, none => none) ∧
    ((mergeFavoritesOnLogin serverFavorites localFavorites).map
      (fun it => it.productId)).Nodup ∧
    (∀ pid,
      pid ∈ (mergeFavoritesOnLogin serverFavorites localFavorites).map
        (fun it => it.productId) ↔
      pid ∈ serverFavorites.map (fun it => it.productId) ∨
      pid ∈ localFavorites.map (fun it => it.productId)) := by
  have hseed : serverFavorites.foldl mapSetFav [] = serverFavorites := by
    have h := foldl_mapSetFav_seed serverFavorites [] hs
      (fun li _ a ha => absurd ha (List.not_mem_nil a))
    simpa using h
  have hmerge : mergeFavoritesOnLogin serverFavorites localFavorites =
      localFavorites.foldl favMergeStep serverFavorites := by
    unfold mergeFavoritesOnLogin
    rw [hseed]
  have hfind : ∀ pid,
      findFav (mergeFavoritesOnLogin serverFavorites localFavorites) pid =
        match findFav serverFavorites pid, findFav localFavorites pid with
        | some s, some l => some (if l.addedAt < s.addedAt then l else s)
        | some s, none => some s
        | none, some l => some l
        | none, none => none := by
    intro pid
    rw [hmerge]
    exact favMerge_find_aux localFavorites serverFavorites pid hl
  refine ⟨hfind, ?_, ?_⟩
  · rw [hmerge]
    exact favMerge_nodup_aux localFavorites serverFavorites hs
  · intro pid
    have hnone : findFav (mergeFavoritesOnLogin serverFavorites localFavorites) pid = none ↔
        (findFav serverFavorites pid = none ∧ findFav localFavorites pid = none) := by
      rw [hfind pid]
      cases hsv : findFav serverFavorites pid <;>
        cases hlv : findFav localFavorites pid <;> simp
    have h1 := findFav_none_iff_not_mem
      (mergeFavoritesOnLogin serverFavorites localFavorites) pid
    have h2 := findFav_none_iff_not_mem serverFavorites pid
    have h3 := findFav_none_iff_not_mem localFavorites pid
    rw [h1, h2, h3] at hnone
    tauto

/-- Witness for C5 at the spec's concrete merge example: server
`{p1: addedAt 100}`, local `{p1: addedAt 50, p2: addedAt 200}` merge to
exactly `{p1: addedAt 50, p2: addedAt 200}`. -/
theorem mergeFavoritesOnLogin_spec_witness :
    findFav (mergeFavoritesOnLogin [wServerFav] [wLocalFav1, wLocalFav2]) "p1" =
      some wLocalFav1 ∧
    findFav (mergeFavoritesOnLogin [wServerFav] [wLocalFav1, wLocalFav2]) "p2" =
      some wLocalFav2 ∧
    ((mergeFavoritesOnLogin [wServerFav] [wLocalFav1, wLocalFav2]).map
      (fun it => it.productId)).Nodup := by
  have h := mergeFavoritesOnLogin_spec [wServerFav] [wLocalFav1, wLocalFav2]
    (by decide) (by decide)
  exact ⟨(h.1 "p1").trans (by decide), (h.1 "p2").trans (by decide), h.2.1⟩

/-! # Claim C6 — logout-then-login round trip for the cart -/

/-- Loading favorites never touches the in-memory cart. -/
theorem loadFavoritesFromStorage_cartItems (s : AppState) :
    (loadFavoritesFromStorage s).cartItems = s.cartItems := by
  unfold loadFavoritesFromStorage
  cases s.favUser with
  | none => rfl
  | some u =>
    dsimp only
    cases lookupA s.session.favs (favKey u) with
    | some l => rfl
    | none =>
      dsimp only
      cases lookupA s.cookies.favs (favKey u) <;> rfl

/-- Loading favorites for a user never touches the in-memory cart. -/
theorem loadFavoritesForUser_cartItems (s : AppState) (userId : String) :
    (loadFavoritesForUser s userId).cartItems = s.cartItems := by
  unfold loadFavoritesForUser
  rw [loadFavoritesFromStorage_cartItems]

/-- C6: add an item while authenticated as user `A` (an accepted add whose
resulting collection `its1` holds the line `X`), then log out: the in-memory
cart is empty and the cart user forgotten, yet `A`'s persisted copy in both
tiers still equals `its1` (so still contains `X`); logout changed no cart or
favorites key of either tier — only the in-memory state and the credential
keys; and a subsequent login as `A` makes `X` visible in memory again with
identical fields. -/
theorem cart_logout_login_roundtrip
    (st : AppState) (A : String) (p : CartProduct) (q : Int)
    (its1 : List CartItem) (X : CartItem) (res : AuthResponse) (now : Int)
    (huser : st.cartUser = some A)
    (hacc : addToCartRes st.cartItems p q = some its1)
    (hX : findCart its1 p.productId = some X)
    (hres : res.user.id = A) :
    (logout (addToCartApp st p q)).cartItems = [] ∧
    (logout (addToCartApp st p q)).cartUser = none ∧
    lookupA (logout (addToCartApp st p q)).session.carts (cartKey A) = some its1 ∧
    lookupA (logout (addToCartApp st p q)).cookies.carts (cartKey A) = some its1 ∧
    (logout (addToCartApp st p q)).session.carts = (addToCartApp st p q).session.carts ∧
    (logout (addToCartApp st p q)).cookies.carts = (addToCartApp st p q).cookies.carts ∧
    (logout (addToCartApp st p q)).session.favs = (addToCartApp st p q).session.favs ∧
    (logout (addToCartApp st p q)).cookies.favs = (addToCartApp st p q).cookies.favs ∧
    (logout (addToCartApp st p q)).session.auth_token = none ∧
    (logout (addToCartApp st p q)).cookies.auth_token = none ∧
    findCart (handleAuthSuccess (logout (addToCartApp st p q)) res now).cartItems
      p.productId = some X := by
  have h1 : addToCartApp st p q = saveCartToStorage { st with cartItems := its1 } := by
    simp only [addToCartApp, hacc]
  have h2 : saveCartToStorage { st with cartItems := its1 } =
      { st with cartItems := its1,
                session := { st.session with
                             carts := assocSet st.session.carts (cartKey A) its1 },
                cookies := { st.cookies with
                             carts := assocSet st.cookies.carts (cartKey A) its1 } } := by
    simp only [saveCartToStorage, huser]
  rw [h1, h2]
  refine ⟨rfl, rfl, ?_, ?_, rfl, rfl, rfl, rfl, rfl, rfl, ?_⟩
  · simp [logout, notifyLogoutApp, clearFavoritesOnLogout, clearCartOnLogout]
  · simp [logout, notifyLogoutApp, clearFavoritesOnLogout, clearCartOnLogout]
  · unfold handleAuthSuccess
    dsimp only
    rw [hres]
    unfold notifyLoginApp
    rw [loadFavoritesForUser_cartItems]
    unfold loadCartForUser loadCartFromStorage
    simp [logout, notifyLogoutApp, clearFavoritesOnLogout, clearCartOnLogout, hX]

/-- Witness for C6: starting from an empty cart authenticated as `"A"`, add
one unit of `p1`, log out, and log back in as `"A"`. -/
theorem cart_logout_login_roundtrip_witness :
    (logout (addToCartApp wAuthedApp wProduct 1)).cartItems = [] ∧
    lookupA (logout (addToCartApp wAuthedApp wProduct 1)).session.carts
      (cartKey "A") = some [mkCartItem wProduct 1] ∧
    findCart (handleAuthSuccess (logout (addToCartApp wAuthedApp wProduct 1))
        { user := { id := "A", name := "Alice", email := "a@x" }, token := "tok" } 0).cartItems
      wProduct.productId = some (mkCartItem wProduct 1) := by
  have h := cart_logout_login_roundtrip wAuthedApp "A" wProduct 1
    [mkCartItem wProduct 1] (mkCartItem wProduct 1)
    { user := { id := "A", name := "Alice", email := "a@x" }, token := "tok" } 0
    rfl (by decide) (by decide) rfl
  exact ⟨h.1, h.2.2.1, h.2.2.2.2.2.2.2.2.2.2⟩

/-! # Claim C3 — dual-tier round trip -/

/-- Reading the long-lived tier recovers a stored value: when the entry
under `key` holds the cookie encoding of `v`, `getCookie` returns `v` —
provided the serializer round-trips `v` and, when `v` is a string, its raw
text does not itself parse as JSON (strings are stored raw by `setCookie`,
and `getCookie` re-parses them). -/
theorem getCookie_roundtrip (s : RawState) (key : String) (v : JsVal)
    (hck : lookupA s.cookies key = some (cookieValueOf v))
    (hser : parseJ (stringifyJ v) = some v)
    (hstr : ∀ x, v = JsVal.str x → parseJ x = none) :
    getCookie noFail s key = .ok v := by
  unfold getCookie
  rw [show pCookieRead noFail s = .ok s.cookies from rfl]
  dsimp only
  rw [hck]
  dsimp only
  cases v with
  | str x =>
    have hpx : parseJ x = none := hstr x rfl
    simp only [cookieValueOf] at *
    rw [hpx]
  | null => rw [show cookieValueOf JsVal.null = stringifyJ JsVal.null from rfl, hser]
  | bool b => rw [show cookieValueOf (JsVal.bool b) = stringifyJ (JsVal.bool b) from rfl, hser]
  | num n => rw [show cookieValueOf (JsVal.num n) = stringifyJ (JsVal.num n) from rfl, hser]
  | arr xs => rw [show cookieValueOf (JsVal.arr xs) = stringifyJ (JsVal.arr xs) from rfl, hser]

/-- C3 (amended): `set(key, v)` on both tiers followed by `get(key)` returns
`v`, both immediately and after the short-lived tier has been cleared (the
read then falls back to the long-lived tier) — for every `v` on which the
serializer round-trips (`JSON.parse(JSON.stringify(v)) = v`) *and* which, if
a string, does not itself read as a JSON document.  The latter restriction
is forced by `setCookie` storing strings raw: see the counterexample. -/
theorem storage_set_get_roundtrip (st : RawState) (key : String) (v : JsVal)
    (st1 st2 : RawState)
    (hser : parseJ (stringifyJ v) = some v)
    (hstr : ∀ x, v = JsVal.str x → parseJ x = none)
    (hset : storeSet noFail st key v 30 = .ok st1)
    (hclear : clearSession noFail st1 = .ok st2) :
    storeGet noFail st1 key = .ok v ∧ storeGet noFail st2 key = .ok v := by
  have hcomp : storeSet noFail st key v 30 =
      .ok { session := assocSet st.session key (stringifyJ v),
            cookies := assocSet st.cookies key (cookieValueOf v) } := by
    simp [storeSet, setSessionItem, setCookie, pSessionSet, pCookieWrite, noFail]
  rw [hcomp] at hset
  injection hset with hset
  subst hset
  have hclcomp : clearSession noFail
      { session := assocSet st.session key (stringifyJ v),
        cookies := assocSet st.cookies key (cookieValueOf v) } =
      .ok { session := [],
            cookies := assocSet st.cookies key (cookieValueOf v) } := by
    simp [clearSession, pSessionClear, noFail]
  rw [hclcomp] at hclear
  injection hclear with hclear
  subst hclear
  have hne : stringifyJ v ≠ "" := by
    intro h
    rw [h] at hser
    exact Option.noConfusion ((rfl : parseJ "" = none).symm.trans hser)
  have hck : lookupA (assocSet st.cookies key (cookieValueOf v)) key =
      some (cookieValueOf v) := lookupA_assocSet_self st.cookies key (cookieValueOf v)
  constructor
  · have hgs : getSessionItem noFail
        { session := assocSet st.session key (stringifyJ v),
          cookies := assocSet st.cookies key (cookieValueOf v) } key = .ok v := by
      simp [getSessionItem, pSessionGet, noFail, lookupA_assocSet_self, hne, hser]
    unfold storeGet
    rw [hgs]
    dsimp only
    by_cases ht : jsTruthy v = true
    · rw [if_pos ht]
    · rw [if_neg ht]
      exact getCookie_roundtrip _ key v hck hser hstr
  · have hgs : getSessionItem noFail
        { session := [],
          cookies := assocSet st.cookies key (cookieValueOf v) } key =
        .ok JsVal.null := by
      simp [getSessionItem, pSessionGet, noFail, lookupA]
    unfold storeGet
    rw [hgs]
    dsimp only [jsTruthy]
    rw [if_neg (by simp)]
    exact getCookie_roundtrip _ key v hck hser hstr

/-- Witness for C3 at the compound value `[1, "a"]`: recovered from the
short-lived tier, and — after that tier is cleared — from the long-lived
tier. -/
theorem storage_set_get_roundtrip_witness :
    storeGet noFail
      { session := [("k", stringifyJ (JsVal.arr [JsVal.num 1, JsVal.str "a"]))],
        cookies := [("k", stringifyJ (JsVal.arr [JsVal.num 1, JsVal.str "a"]))] } "k" =
      .ok (JsVal.arr [JsVal.num 1, JsVal.str "a"]) ∧
    storeGet noFail
      { session := [],
        cookies := [("k", stringifyJ (JsVal.arr [JsVal.num 1, JsVal.str "a"]))] } "k" =
      .ok (JsVal.arr [JsVal.num 1, JsVal.str "a"]) :=
  storage_set_get_roundtrip { session := [], cookies := [] } "k"
    (JsVal.arr [JsVal.num 1, JsVal.str "a"]) _ _ rfl
    (fun _ h => JsVal.noConfusion h) rfl rfl

/-- Counterexample to C3 as stated: the string value `"123"` is stored raw
in the long-lived tier (`typeof value === 'string'` branch of `setCookie`),
so once the short-lived tier is cleared, `get` re-parses the raw text and
returns the *number* `123`, which is not deep-equal to the string `"123"`. -/
theorem storage_roundtrip_cex :
    (match storeSet noFail { session := [], cookies := [] } "k" (JsVal.str "123") 30 with
     | .ok st1 =>
       match clearSession noFail st1 with
       | .ok st2 => storeGet noFail st2 "k"
       | .error e => .error e
     | .error e => .error e) = Except.ok (JsVal.num 123) ∧
    JsVal.num 123 ≠ JsVal.str "123" :=
  ⟨rfl, fun h => JsVal.noConfusion h⟩

end CV
